import Mathlib

/-!
Verification of the SceneScape cluster-analytics subsystem and the controller
tracking dispatcher, shallowly embedded from

* `src/cluster_analytics/src/cluster_analytics_tracker.py`
* `src/cluster_analytics/src/cluster_analytics_context.py`
* `src/controller/src/controller/tracking.py` together with
  `src/controller/src/controller/observability/metrics.py`

Modelling conventions:
* Python floats are modelled by exact rationals (`ℚ`); the Euclidean norms
  computed with `np.linalg.norm` inside the Hungarian matcher are modelled by
  the exact real square root, so matching costs live in `ℝ` and `float('inf')`
  is modelled by `Option ℝ` with `none` standing for `+∞`.
* Python dicts are modelled by insertion-ordered association lists; `uuid.uuid4`
  is modelled by a supply of fresh natural-number identifiers threaded through
  the tracker state.
* `scipy.optimize.linear_sum_assignment` is modelled by exhaustive
  minimisation over all maximal partial assignments; the `ValueError` it raises
  on an infeasible cost matrix is modelled by `Option`.
-/

/- The Batteries rational-number operations are sealed against unfolding;
re-open them so that concrete executions of the embedded code can be settled
by kernel evaluation (`decide`). -/
unseal Rat.add Rat.mul Rat.sub Rat.inv Rat.ofScientific

namespace SceneScape

/-- Python `l[-n:]` on a list. -/
def lastN {α : Type} (n : ℕ) (l : List α) : List α :=
  l.drop (l.length - n)

/-! ## ClusterState (cluster_analytics_tracker.py, class ClusterState) -/

inductive ClusterState where
  | new
  | active
  | stable
  | fading
  | lost
deriving DecidableEq

/-! ## Data carried by a cluster detection record (built in
cluster_analytics_context.py, `analyzeObjectClusters`) -/

/-- The `center_of_mass` dict `{'x': …, 'y': …}`. -/
structure Centroid where
  x : ℚ
  y : ℚ
deriving DecidableEq

/-- The `shape_analysis` dict; only the `'shape'` entry is read by the
tracker (`shape_analysis['shape']`), the rest is opaque payload. -/
structure ShapeAnalysis where
  shape : String
deriving DecidableEq

/-- The `velocity_analysis` dict; only `average_velocity[:2]` is read by the
tracker, modelled as the two components `vx`, `vy`. -/
structure VelocityAnalysis where
  vx : ℚ
  vy : ℚ
deriving DecidableEq

/-- The `(eps, min_samples)` DBSCAN parameter pair. -/
structure DbscanParams where
  eps : ℚ
  min_samples : ℤ
deriving DecidableEq

/-- One cluster-detection dictionary as produced per non-noise DBSCAN cluster. -/
structure Detection where
  category : String
  objects_count : ℕ
  center_of_mass : Centroid
  shape_analysis : ShapeAnalysis
  velocity_analysis : VelocityAnalysis
  object_ids : List String
  dbscan_params : DbscanParams
deriving DecidableEq

/-! ## ClusterHistory (cluster_analytics_tracker.py, lines 22-49) -/

def MAX_HISTORY_SIZE : ℕ := 100

structure ClusterHistory where
  positions : List (ℚ × ℚ × ℚ)
  velocities : List (ℚ × ℚ × ℚ)
  sizes : List ℕ
  shapes : List String
  timestamps : List ℚ
deriving DecidableEq

def ClusterHistory.empty : ClusterHistory :=
  ⟨[], [], [], [], []⟩

/-- `ClusterHistory.addObservation`: append the observation to every parallel
list, then trim every list to the newest `MAX_HISTORY_SIZE` entries. -/
def ClusterHistory.addObservation (h : ClusterHistory) (position : ℚ × ℚ)
    (velocity : ℚ × ℚ) (size : ℕ) (shape : String) (timestamp : ℚ) :
    ClusterHistory :=
  let positions := h.positions ++ [(position.1, position.2, timestamp)]
  let velocities := h.velocities ++ [(velocity.1, velocity.2, timestamp)]
  let sizes := h.sizes ++ [size]
  let shapes := h.shapes ++ [shape]
  let timestamps := h.timestamps ++ [timestamp]
  if timestamps.length > MAX_HISTORY_SIZE then
    ⟨lastN MAX_HISTORY_SIZE positions, lastN MAX_HISTORY_SIZE velocities,
     lastN MAX_HISTORY_SIZE sizes, lastN MAX_HISTORY_SIZE shapes,
     lastN MAX_HISTORY_SIZE timestamps⟩
  else
    ⟨positions, velocities, sizes, shapes, timestamps⟩

/-! ## TrackedCluster (cluster_analytics_tracker.py, lines 51-310)

The tracking parameters are hardcoded in `TrackedCluster.__init__`
(lines 66-80); the `config` object created by `ClusterAnalyticsConfig` is
never consulted by `TrackedCluster`. -/

def FRAMES_TO_ACTIVATE : ℕ := 3
def FRAMES_TO_STABLE : ℕ := 20
def FRAMES_TO_FADE : ℕ := 15
def FRAMES_TO_LOST : ℕ := 10

def INITIAL_CONFIDENCE : ℚ := 0.5
def ACTIVATION_THRESHOLD : ℚ := 0.6
def STABILITY_THRESHOLD : ℚ := 0.7
def CONFIDENCE_MISS_PENALTY : ℚ := 0.1
def CONFIDENCE_MAX_MISS_PENALTY : ℚ := 0.5
def CONFIDENCE_LONGEVITY_BONUS_MAX : ℚ := 0.2
def CONFIDENCE_LONGEVITY_FRAMES : ℕ := 100

/-- Default values read by `ClusterAnalyticsConfig` from
`cluster_tracking.state_transitions` in config.json
(cluster_analytics_context.py, lines 70-75). -/
def CONFIG_DEFAULT_FRAMES_TO_ACTIVATE : ℕ := 3
def CONFIG_DEFAULT_FRAMES_TO_STABLE : ℕ := 20
def CONFIG_DEFAULT_FRAMES_TO_FADE : ℕ := 5
def CONFIG_DEFAULT_FRAMES_TO_LOST : ℕ := 10

structure TrackedCluster where
  uuid : ℕ
  scene_id : String
  category : String
  state : ClusterState
  centroid : Centroid
  shape_analysis : ShapeAnalysis
  velocity_analysis : VelocityAnalysis
  object_ids : List String
  object_count : ℕ
  dbscan_params : DbscanParams
  first_seen : ℚ
  last_seen : ℚ
  last_updated : ℚ
  frames_detected : ℕ
  frames_missed : ℕ
  total_frames : ℕ
  history : ClusterHistory
  confidence : ℚ
  stability_score : ℚ
  predicted_position : Option (ℚ × ℚ)
  predicted_velocity : Option (ℚ × ℚ)
deriving DecidableEq

/-- Population variance `np.var` of a list of rationals (the code never takes
a variance of an empty list; the empty case is given the junk value 0). -/
def variance (l : List ℚ) : ℚ :=
  if l.length = 0 then 0
  else
    let n : ℚ := l.length
    let mean := l.sum / n
    (l.map (fun x => (x - mean) ^ 2)).sum / n

/-- `np.mean` of a list of rationals (junk value 0 on the empty list). -/
def listMean (l : List ℚ) : ℚ :=
  if l.length = 0 then 0 else l.sum / (l.length : ℚ)

/-- `TrackedCluster._updateConfidence` (lines 174-191). -/
def TrackedCluster.updateConfidence (c : TrackedCluster) : TrackedCluster :=
  let detection_ratio : ℚ := (c.frames_detected : ℚ) / (max c.total_frames 1 : ℕ)
  let base_confidence := detection_ratio
  let miss_penalty := min ((c.frames_missed : ℚ) * CONFIDENCE_MISS_PENALTY)
    CONFIDENCE_MAX_MISS_PENALTY
  let longevity_bonus := min ((c.frames_detected : ℚ) / (CONFIDENCE_LONGEVITY_FRAMES : ℚ))
    CONFIDENCE_LONGEVITY_BONUS_MAX
  { c with confidence := max 0 (min 1 (base_confidence - miss_penalty + longevity_bonus)) }

/-- `TrackedCluster._updateStabilityScore` (lines 193-223). -/
def TrackedCluster.updateStabilityScore (c : TrackedCluster) : TrackedCluster :=
  if c.history.positions.length < 3 then
    { c with stability_score := 0 }
  else
    let recent_positions := lastN 10 c.history.positions
    let recent_sizes := lastN 10 c.history.sizes
    let recent_shapes := lastN 10 c.history.shapes
    -- np.mean(np.var(positions_array, axis=0)): mean of the per-axis variances
    let position_variance :=
      (variance (recent_positions.map (fun p => p.1))
        + variance (recent_positions.map (fun p => p.2.1))) / 2
    let position_stability := 1 / (1 + position_variance)
    let size_variance := variance (recent_sizes.map (fun n => (n : ℚ)))
    let size_stability := 1 / (1 + size_variance)
    -- count of the modal shape, divided by the number of recent shapes
    let modal_count := (recent_shapes.map (fun s => recent_shapes.count s)).foldl max 0
    let shape_consistency := (modal_count : ℚ) / (recent_shapes.length : ℚ)
    { c with stability_score :=
        0.4 * position_stability + 0.3 * size_stability + 0.3 * shape_consistency }

/-- The state computed by `TrackedCluster._updateState` (lines 225-243): the
lifecycle FSM. -/
def TrackedCluster.nextState (c : TrackedCluster) : ClusterState :=
  match c.state with
  | ClusterState.new =>
      if c.frames_detected ≥ FRAMES_TO_ACTIVATE ∧ c.confidence > ACTIVATION_THRESHOLD then
        ClusterState.active
      else ClusterState.new
  | ClusterState.active =>
      if c.frames_detected ≥ FRAMES_TO_STABLE ∧ c.stability_score > STABILITY_THRESHOLD then
        ClusterState.stable
      else if c.frames_missed ≥ FRAMES_TO_FADE then
        ClusterState.fading
      else ClusterState.active
  | ClusterState.stable =>
      if c.frames_missed ≥ FRAMES_TO_FADE then
        ClusterState.fading
      else ClusterState.stable
  | ClusterState.fading =>
      if c.frames_missed ≥ FRAMES_TO_LOST then
        ClusterState.lost
      else if c.frames_missed = 0 then
        ClusterState.active
      else ClusterState.fading
  | ClusterState.lost => ClusterState.lost

/-- `TrackedCluster._updateState`: only the `state` field changes. -/
def TrackedCluster.updateState (c : TrackedCluster) : TrackedCluster :=
  { c with state := c.nextState }

/-- `TrackedCluster._updatePrediction` (lines 245-264). -/
def TrackedCluster.updatePrediction (c : TrackedCluster) : TrackedCluster :=
  if c.history.positions.length < 2 then
    { c with
        predicted_position := some (c.centroid.x, c.centroid.y),
        predicted_velocity := some (c.velocity_analysis.vx, c.velocity_analysis.vy) }
  else
    let recent_velocities := lastN 5 c.history.velocities
    let avg_vx := listMean (recent_velocities.map (fun v => v.1))
    let avg_vy := listMean (recent_velocities.map (fun v => v.2.1))
    { c with
        predicted_position := some (c.centroid.x + avg_vx, c.centroid.y + avg_vy),
        predicted_velocity := some (avg_vx, avg_vy) }

/-- `TrackedCluster.__init__` (lines 62-121); `uuid.uuid4()` is modelled by
an externally supplied fresh identifier. -/
def mkTrackedCluster (uuid : ℕ) (scene_id category : String) (centroid : Centroid)
    (shape_analysis : ShapeAnalysis) (velocity_analysis : VelocityAnalysis)
    (object_ids : List String) (dbscan_params : DbscanParams)
    (detection_timestamp : ℚ) : TrackedCluster :=
  let base : TrackedCluster :=
    { uuid := uuid
      scene_id := scene_id
      category := category
      state := ClusterState.new
      centroid := centroid
      shape_analysis := shape_analysis
      velocity_analysis := velocity_analysis
      object_ids := object_ids
      object_count := object_ids.length
      dbscan_params := dbscan_params
      first_seen := detection_timestamp
      last_seen := detection_timestamp
      last_updated := detection_timestamp
      frames_detected := 1
      frames_missed := 0
      total_frames := 1
      history := ClusterHistory.empty.addObservation (centroid.x, centroid.y)
        (velocity_analysis.vx, velocity_analysis.vy) object_ids.length
        shape_analysis.shape detection_timestamp
      confidence := INITIAL_CONFIDENCE
      stability_score := 0
      predicted_position := none
      predicted_velocity := none }
  base.updatePrediction

/-- `TrackedCluster.update` (lines 123-157). -/
def TrackedCluster.update (c : TrackedCluster) (centroid : Centroid)
    (shape_analysis : ShapeAnalysis) (velocity_analysis : VelocityAnalysis)
    (object_ids : List String) (detection_timestamp : ℚ) : TrackedCluster :=
  let c' : TrackedCluster :=
    { c with
        centroid := centroid
        shape_analysis := shape_analysis
        velocity_analysis := velocity_analysis
        object_ids := object_ids
        object_count := object_ids.length
        last_seen := detection_timestamp
        last_updated := detection_timestamp
        frames_detected := c.frames_detected + 1
        total_frames := c.total_frames + 1
        frames_missed := 0
        history := c.history.addObservation (centroid.x, centroid.y)
          (velocity_analysis.vx, velocity_analysis.vy) object_ids.length
          shape_analysis.shape detection_timestamp }
  c'.updateConfidence.updateStabilityScore.updateState.updatePrediction

/-- `TrackedCluster.markMissed` (lines 159-172). -/
def TrackedCluster.markMissed (c : TrackedCluster) (current_timestamp : ℚ) :
    TrackedCluster :=
  let c' : TrackedCluster :=
    { c with
        frames_missed := c.frames_missed + 1
        total_frames := c.total_frames + 1
        last_updated := current_timestamp }
  c'.updateConfidence.updateState

/-- `TrackedCluster.shouldBeArchived` (lines 278-281); `current_time = none`
models the Python `None`, for which `getTimeSinceLastSeen` returns `+∞`. -/
def TrackedCluster.shouldBeArchived (c : TrackedCluster) (current_time : Option ℚ)
    (max_time_lost : ℚ) : Bool :=
  decide (c.state = ClusterState.lost) &&
    match current_time with
    | none => true
    | some t => decide (t - c.last_seen > max_time_lost)

/-! ## Operation sequences on one cluster, for the per-cluster invariants -/

inductive ClusterOp where
  | update (centroid : Centroid) (shape_analysis : ShapeAnalysis)
      (velocity_analysis : VelocityAnalysis) (object_ids : List String) (ts : ℚ)
  | markMissed (ts : ℚ)

def applyOp (c : TrackedCluster) : ClusterOp → TrackedCluster
  | ClusterOp.update centroid sh v ids ts => c.update centroid sh v ids ts
  | ClusterOp.markMissed ts => c.markMissed ts

def applyOps (c : TrackedCluster) (ops : List ClusterOp) : TrackedCluster :=
  ops.foldl applyOp c

/-! ## Bookkeeping lemmas: the metric recomputations touch only
`confidence`, `stability_score`, `state`, `predicted_position` and
`predicted_velocity`. -/

@[simp] lemma updateConfidence_frames_detected (c : TrackedCluster) :
    c.updateConfidence.frames_detected = c.frames_detected := rfl

@[simp] lemma updateConfidence_frames_missed (c : TrackedCluster) :
    c.updateConfidence.frames_missed = c.frames_missed := rfl

@[simp] lemma updateConfidence_total_frames (c : TrackedCluster) :
    c.updateConfidence.total_frames = c.total_frames := rfl

@[simp] lemma updateConfidence_history (c : TrackedCluster) :
    c.updateConfidence.history = c.history := rfl

@[simp] lemma updateStabilityScore_frames_detected (c : TrackedCluster) :
    c.updateStabilityScore.frames_detected = c.frames_detected := by
  unfold TrackedCluster.updateStabilityScore; split <;> rfl

@[simp] lemma updateStabilityScore_frames_missed (c : TrackedCluster) :
    c.updateStabilityScore.frames_missed = c.frames_missed := by
  unfold TrackedCluster.updateStabilityScore; split <;> rfl

@[simp] lemma updateStabilityScore_total_frames (c : TrackedCluster) :
    c.updateStabilityScore.total_frames = c.total_frames := by
  unfold TrackedCluster.updateStabilityScore; split <;> rfl

@[simp] lemma updateStabilityScore_history (c : TrackedCluster) :
    c.updateStabilityScore.history = c.history := by
  unfold TrackedCluster.updateStabilityScore; split <;> rfl

@[simp] lemma updateState_frames_detected (c : TrackedCluster) :
    c.updateState.frames_detected = c.frames_detected := rfl

@[simp] lemma updateState_frames_missed (c : TrackedCluster) :
    c.updateState.frames_missed = c.frames_missed := rfl

@[simp] lemma updateState_total_frames (c : TrackedCluster) :
    c.updateState.total_frames = c.total_frames := rfl

@[simp] lemma updateState_history (c : TrackedCluster) :
    c.updateState.history = c.history := rfl

@[simp] lemma updatePrediction_frames_detected (c : TrackedCluster) :
    c.updatePrediction.frames_detected = c.frames_detected := by
  unfold TrackedCluster.updatePrediction; split <;> rfl

@[simp] lemma updatePrediction_frames_missed (c : TrackedCluster) :
    c.updatePrediction.frames_missed = c.frames_missed := by
  unfold TrackedCluster.updatePrediction; split <;> rfl

@[simp] lemma updatePrediction_total_frames (c : TrackedCluster) :
    c.updatePrediction.total_frames = c.total_frames := by
  unfold TrackedCluster.updatePrediction; split <;> rfl

@[simp] lemma updatePrediction_history (c : TrackedCluster) :
    c.updatePrediction.history = c.history := by
  unfold TrackedCluster.updatePrediction; split <;> rfl

lemma update_counters (c : TrackedCluster) (cen : Centroid) (sh : ShapeAnalysis)
    (v : VelocityAnalysis) (ids : List String) (ts : ℚ) :
    (c.update cen sh v ids ts).frames_detected = c.frames_detected + 1 ∧
    (c.update cen sh v ids ts).frames_missed = 0 ∧
    (c.update cen sh v ids ts).total_frames = c.total_frames + 1 ∧
    (c.update cen sh v ids ts).history = c.history.addObservation (cen.x, cen.y)
      (v.vx, v.vy) ids.length sh.shape ts := by
  unfold TrackedCluster.update
  refine ⟨?_, ?_, ?_, ?_⟩ <;> simp

lemma markMissed_counters (c : TrackedCluster) (ts : ℚ) :
    (c.markMissed ts).frames_detected = c.frames_detected ∧
    (c.markMissed ts).frames_missed = c.frames_missed + 1 ∧
    (c.markMissed ts).total_frames = c.total_frames + 1 ∧
    (c.markMissed ts).history = c.history := by
  unfold TrackedCluster.markMissed
  refine ⟨?_, ?_, ?_, ?_⟩ <;> simp

lemma mkTrackedCluster_counters (uuid : ℕ) (scene_id category : String)
    (cen : Centroid) (sh : ShapeAnalysis) (v : VelocityAnalysis)
    (ids : List String) (p : DbscanParams) (ts : ℚ) :
    (mkTrackedCluster uuid scene_id category cen sh v ids p ts).frames_detected = 1 ∧
    (mkTrackedCluster uuid scene_id category cen sh v ids p ts).frames_missed = 0 ∧
    (mkTrackedCluster uuid scene_id category cen sh v ids p ts).total_frames = 1 ∧
    (mkTrackedCluster uuid scene_id category cen sh v ids p ts).history.timestamps.length = 1 := by
  refine ⟨?_, ?_, ?_, ?_⟩ <;>
    simp [mkTrackedCluster, ClusterHistory.addObservation, ClusterHistory.empty,
      MAX_HISTORY_SIZE]

/-! ## Claim C1: frames accounting -/

lemma applyOp_frames_le (c : TrackedCluster) (op : ClusterOp)
    (h : c.frames_detected + c.frames_missed ≤ c.total_frames) :
    (applyOp c op).frames_detected + (applyOp c op).frames_missed ≤
      (applyOp c op).total_frames := by
  cases op with
  | update cen sh v ids ts =>
      obtain ⟨h1, h2, h3, -⟩ := update_counters c cen sh v ids ts
      rw [applyOp, h1, h2, h3]; omega
  | markMissed ts =>
      obtain ⟨h1, h2, h3, -⟩ := markMissed_counters c ts
      rw [applyOp, h1, h2, h3]; omega

lemma applyOps_frames_le (ops : List ClusterOp) :
    ∀ c : TrackedCluster, c.frames_detected + c.frames_missed ≤ c.total_frames →
      (applyOps c ops).frames_detected + (applyOps c ops).frames_missed ≤
        (applyOps c ops).total_frames := by
  induction ops with
  | nil => intro c h; exact h
  | cons op ops ih =>
      intro c h
      exact ih (applyOp c op) (applyOp_frames_le c op h)

/-- Claim C1 (amended): for every tracked cluster, after any sequence of
`update` and `markMissed` operations following construction,
`frames_detected + frames_missed ≤ total_frames`.  Equality does not hold in
general because `update` resets `frames_missed` to 0 while `total_frames`
keeps counting, so any miss followed by a detection makes the sum strictly
smaller than `total_frames`. -/
theorem frames_detected_add_missed_le_total (uuid : ℕ) (scene_id category : String)
    (cen : Centroid) (sh : ShapeAnalysis) (v : VelocityAnalysis)
    (ids : List String) (p : DbscanParams) (ts : ℚ) (ops : List ClusterOp) :
    (applyOps (mkTrackedCluster uuid scene_id category cen sh v ids p ts) ops).frames_detected
      + (applyOps (mkTrackedCluster uuid scene_id category cen sh v ids p ts) ops).frames_missed
      ≤ (applyOps (mkTrackedCluster uuid scene_id category cen sh v ids p ts) ops).total_frames := by
  apply applyOps_frames_le
  obtain ⟨h1, h2, h3, -⟩ := mkTrackedCluster_counters uuid scene_id category cen sh v ids p ts
  rw [h1, h2, h3]

/-! Concrete data used by several concrete evaluations below. -/

def sampleDetection : Detection :=
  { category := "person"
    objects_count := 1
    center_of_mass := ⟨0, 0⟩
    shape_analysis := ⟨"circle"⟩
    velocity_analysis := ⟨0, 0⟩
    object_ids := ["o1"]
    dbscan_params := ⟨1, 3⟩ }

def sampleCluster : TrackedCluster :=
  mkTrackedCluster 0 "scene1" "person" ⟨0, 0⟩ ⟨"circle"⟩ ⟨0, 0⟩ ["o1"] ⟨1, 3⟩ 10

def sampleUpdateOp (ts : ℚ) : ClusterOp :=
  ClusterOp.update ⟨0, 0⟩ ⟨"circle"⟩ ⟨0, 0⟩ ["o1"] ts

/-- Claim C1 (counterexample): a constructed cluster that is missed once and
then redetected has `frames_detected + frames_missed = 2` but
`total_frames = 3`, because `update` resets `frames_missed` to 0. -/
theorem frames_equation_counterexample :
    ¬ ((applyOps sampleCluster [ClusterOp.markMissed 11, sampleUpdateOp 12]).frames_detected
        + (applyOps sampleCluster [ClusterOp.markMissed 11, sampleUpdateOp 12]).frames_missed
        = (applyOps sampleCluster [ClusterOp.markMissed 11, sampleUpdateOp 12]).total_frames) := by
  decide

/-! ## Claim C2: fade / loss thresholds -/

/-- A cluster brought to `ACTIVE` by three consecutive detections. -/
def activeSampleCluster : TrackedCluster :=
  applyOps sampleCluster [sampleUpdateOp 11, sampleUpdateOp 12]

/-- The active sample cluster after `n` consecutive missed frames. -/
def missedSample (n : ℕ) : TrackedCluster :=
  applyOps activeSampleCluster ((List.range n).map (fun i => ClusterOp.markMissed (13 + i)))

/-- Claim C2 (divergence evaluation): `TrackedCluster.__init__` hardcodes
`FRAMES_TO_FADE = 15` even though the configuration default
`cluster_tracking.state_transitions.frames_to_fade` is 5, so an `ACTIVE`
cluster under consecutive misses is still `ACTIVE` after 5 and even 10
missed frames, becomes `FADING` only at the 15th miss, and `LOST` at the
16th, contradicting the documented defaults (FADING after 5, LOST after 10). -/
theorem fade_threshold_divergence :
    FRAMES_TO_FADE = 15 ∧ CONFIG_DEFAULT_FRAMES_TO_FADE = 5 ∧
    activeSampleCluster.state = ClusterState.active ∧
    (missedSample 5).state = ClusterState.active ∧
    (missedSample 5).frames_missed = 5 ∧
    (missedSample 10).state = ClusterState.active ∧
    (missedSample 10).frames_missed = 10 ∧
    (missedSample 14).state = ClusterState.active ∧
    (missedSample 15).state = ClusterState.fading ∧
    (missedSample 16).state = ClusterState.lost := by
  decide

/-! ## Claim C4: history size -/

lemma length_lastN {α : Type} (n : ℕ) (l : List α) :
    (lastN n l).length = min l.length n := by
  simp [lastN]; omega

lemma addObservation_timestamps_length (h : ClusterHistory) (pos vel : ℚ × ℚ)
    (size : ℕ) (shape : String) (ts : ℚ) :
    (h.addObservation pos vel size shape ts).timestamps.length =
      min (h.timestamps.length + 1) MAX_HISTORY_SIZE := by
  simp only [ClusterHistory.addObservation]
  split
  · next hgt =>
      simp only [List.length_append, List.length_cons, List.length_nil] at hgt ⊢
      rw [length_lastN]
      simp only [List.length_append, List.length_cons, List.length_nil]
  · next hle =>
      simp only [List.length_append, List.length_cons, List.length_nil] at hle ⊢
      omega

/-- The length invariant tying the observation history to `frames_detected`. -/
def historyInv (c : TrackedCluster) : Prop :=
  c.history.timestamps.length = min c.frames_detected MAX_HISTORY_SIZE ∧
  1 ≤ c.frames_detected

lemma applyOp_historyInv (c : TrackedCluster) (op : ClusterOp) (h : historyInv c) :
    historyInv (applyOp c op) := by
  obtain ⟨hlen, hfd⟩ := h
  cases op with
  | update cen sh v ids ts =>
      obtain ⟨h1, -, -, h4⟩ := update_counters c cen sh v ids ts
      constructor
      · rw [applyOp, h1, h4, addObservation_timestamps_length, hlen]
        unfold MAX_HISTORY_SIZE at hlen ⊢
        omega
      · rw [applyOp, h1]; omega
  | markMissed ts =>
      obtain ⟨h1, -, -, h4⟩ := markMissed_counters c ts
      constructor
      · rw [applyOp, h1, h4, hlen]
      · rw [applyOp, h1]; omega

lemma applyOps_historyInv (ops : List ClusterOp) :
    ∀ c : TrackedCluster, historyInv c → historyInv (applyOps c ops) := by
  induction ops with
  | nil => intro c h; exact h
  | cons op ops ih => intro c h; exact ih (applyOp c op) (applyOp_historyInv c op h)

lemma mkTrackedCluster_historyInv (uuid : ℕ) (scene_id category : String)
    (cen : Centroid) (sh : ShapeAnalysis) (v : VelocityAnalysis)
    (ids : List String) (p : DbscanParams) (ts : ℚ) :
    historyInv (mkTrackedCluster uuid scene_id category cen sh v ids p ts) := by
  obtain ⟨h1, -, -, h4⟩ := mkTrackedCluster_counters uuid scene_id category cen sh v ids p ts
  constructor
  · rw [h4, h1]; rfl
  · rw [h1]

/-- Claim C4 (amended): after any sequence of `update` and `markMissed`
operations following construction, the observation-history length is at most
100 and equals `min(frames_detected, 100)` — not `min(total_frames, 100)`,
because `markMissed` records no observation; the oldest observations are
dropped on overflow. -/
theorem history_length_eq_min_frames_detected (uuid : ℕ) (scene_id category : String)
    (cen : Centroid) (sh : ShapeAnalysis) (v : VelocityAnalysis)
    (ids : List String) (p : DbscanParams) (ts : ℚ) (ops : List ClusterOp) :
    (applyOps (mkTrackedCluster uuid scene_id category cen sh v ids p ts) ops).history.timestamps.length
      = min (applyOps (mkTrackedCluster uuid scene_id category cen sh v ids p ts) ops).frames_detected 100
    ∧ (applyOps (mkTrackedCluster uuid scene_id category cen sh v ids p ts) ops).history.timestamps.length
      ≤ 100 := by
  have h := applyOps_historyInv ops _
    (mkTrackedCluster_historyInv uuid scene_id category cen sh v ids p ts)
  obtain ⟨hlen, -⟩ := h
  unfold MAX_HISTORY_SIZE at hlen
  refine ⟨hlen, ?_⟩
  rw [hlen]; omega

/-- Claim C4 (counterexample): a constructed cluster that is missed once has
history length 1 but `min(total_frames, 100) = 2`. -/
theorem history_length_counterexample :
    ¬ ((applyOps sampleCluster [ClusterOp.markMissed 11]).history.timestamps.length
        = min (applyOps sampleCluster [ClusterOp.markMissed 11]).total_frames 100) := by
  decide

/-! ## Ordered-dictionary helpers

Python dicts preserve insertion order and have unique keys; they are modelled
by association lists together with `Nodup` hypotheses on the key column. -/

section Dict

variable {K V : Type} [DecidableEq K]

/-- `d.get(k)` / `d[k]`. -/
def lookupKey (l : List (K × V)) (k : K) : Option V :=
  match l with
  | [] => none
  | kv :: t => if kv.1 = k then some kv.2 else lookupKey t k

/-- `d[k] = v`: overwrite in place, or append a new binding. -/
def dictSet (l : List (K × V)) (k : K) (v : V) : List (K × V) :=
  match l with
  | [] => [(k, v)]
  | kv :: t => if kv.1 = k then (k, v) :: t else kv :: dictSet t k v

/-- `del d[k]` / `d.pop(k)`: drop the first binding of `k`. -/
def dictDelete (l : List (K × V)) (k : K) : List (K × V) :=
  match l with
  | [] => []
  | kv :: t => if kv.1 = k then t else kv :: dictDelete t k

/-- In-place mutation of the object stored under `k` (a Python object update
seen through the dict). -/
def dictModify (l : List (K × V)) (k : K) (f : V → V) : List (K × V) :=
  l.map (fun kv => if kv.1 = k then (kv.1, f kv.2) else kv)

def dictKeys (l : List (K × V)) : List K := l.map (fun kv => kv.1)

end Dict

/-- Stable insert for `sortByKey` (the Python `sorted` is stable). -/
def insertByKey {α : Type} (key : α → ℚ) (a : α) : List α → List α
  | [] => [a]
  | b :: t => if key a ≤ key b then a :: b :: t else b :: insertByKey key a t

/-- Stable sort by a rational key, modelling `sorted(…, key=…)`. -/
def sortByKey {α : Type} (key : α → ℚ) : List α → List α
  | [] => []
  | a :: t => insertByKey key a (sortByKey key t)

/-! ## ClusterMemory (cluster_analytics_tracker.py, lines 312-462)

As with `TrackedCluster`, the archival threshold is hardcoded in
`ClusterMemory.__init__`; the `config` argument is ignored. -/

def MAX_ACTIVE_CLUSTERS : ℕ := 10
def MAX_ARCHIVED_CLUSTERS : ℕ := 50
def ARCHIVE_TIME_THRESHOLD : ℚ := 5.0

structure ClusterMemory where
  active_clusters : List (ℕ × TrackedCluster)
  archived_clusters : List (ℕ × TrackedCluster)
  clusters_by_scene : List (String × List ℕ)
  clusters_by_category : List (String × List ℕ)
deriving DecidableEq

def ClusterMemory.empty : ClusterMemory := ⟨[], [], [], []⟩

/-- `ClusterMemory.add` (lines 339-348). -/
def ClusterMemory.add (m : ClusterMemory) (c : TrackedCluster) : ClusterMemory :=
  { m with
      active_clusters := dictSet m.active_clusters c.uuid c
      clusters_by_scene := dictSet m.clusters_by_scene c.scene_id
        ((lookupKey m.clusters_by_scene c.scene_id).getD [] ++ [c.uuid])
      clusters_by_category := dictSet m.clusters_by_category c.category
        ((lookupKey m.clusters_by_category c.category).getD [] ++ [c.uuid]) }

/-- `ClusterMemory.get` (lines 350-352). -/
def ClusterMemory.get (m : ClusterMemory) (u : ℕ) : Option TrackedCluster :=
  lookupKey m.active_clusters u

/-- `ClusterMemory.getClustersByScene` (lines 354-358). -/
def ClusterMemory.getClustersByScene (m : ClusterMemory) (scene_id : String) :
    List TrackedCluster :=
  ((lookupKey m.clusters_by_scene scene_id).getD []).filterMap
    (fun u => lookupKey m.active_clusters u)

/-- The `else` branch of `getClustersByCategory`: query via the category
index. -/
def ClusterMemory.clustersByCategoryIndex (m : ClusterMemory) (category : String) :
    List TrackedCluster :=
  ((lookupKey m.clusters_by_category category).getD []).filterMap
    (fun u => lookupKey m.active_clusters u)

/-- `ClusterMemory.getClustersByCategory` (lines 360-368); the Python
`if scene_id:` is truthiness, so `None` and the empty string both take the
category-index branch. -/
def ClusterMemory.getClustersByCategory (m : ClusterMemory) (category : String)
    (scene_id : Option String) : List TrackedCluster :=
  match scene_id with
  | some s =>
      if s = "" then m.clustersByCategoryIndex category
      else (m.getClustersByScene s).filter (fun c => c.category = category)
  | none => m.clustersByCategoryIndex category

/-- `ClusterMemory.getClustersByState` (lines 370-372). -/
def ClusterMemory.getClustersByState (m : ClusterMemory) (state : ClusterState) :
    List TrackedCluster :=
  (m.active_clusters.map (fun kv => kv.2)).filter (fun c => c.state = state)

/-- `ClusterMemory.archive` (lines 374-389). -/
def ClusterMemory.archive (m : ClusterMemory) (u : ℕ) : ClusterMemory :=
  match lookupKey m.active_clusters u with
  | none => m
  | some c =>
      { active_clusters := dictDelete m.active_clusters u
        archived_clusters := dictSet m.archived_clusters u c
        clusters_by_scene := dictModify m.clusters_by_scene c.scene_id
          (fun l => l.erase u)
        clusters_by_category := dictModify m.clusters_by_category c.category
          (fun l => l.erase u) }

/-- First half of `ClusterMemory.cleanupOldClusters` (lines 391-402): archive
every active cluster for which `shouldBeArchived` holds. -/
def ClusterMemory.cleanupArchivePass (m : ClusterMemory) (current_time : Option ℚ) :
    ClusterMemory :=
  let to_archive := (m.active_clusters.filter
    (fun kv => kv.2.shouldBeArchived current_time ARCHIVE_TIME_THRESHOLD)).map
      (fun kv => kv.1)
  to_archive.foldl (fun acc u => acc.archive u) m

/-- Second half of `ClusterMemory.cleanupOldClusters` (lines 404-413): if the
archive exceeds `MAX_ARCHIVED_CLUSTERS`, delete the oldest entries by
`last_seen` until exactly `MAX_ARCHIVED_CLUSTERS` remain. -/
def ClusterMemory.limitArchive (m : ClusterMemory) : ClusterMemory :=
  if m.archived_clusters.length > MAX_ARCHIVED_CLUSTERS then
    { m with archived_clusters :=
        (((sortByKey (fun kv => kv.2.last_seen) m.archived_clusters).take
            (m.archived_clusters.length - MAX_ARCHIVED_CLUSTERS)).map
          (fun kv => kv.1)).foldl (fun l k => dictDelete l k) m.archived_clusters }
  else m

/-- `ClusterMemory.cleanupOldClusters` (lines 391-414). -/
def ClusterMemory.cleanupOldClusters (m : ClusterMemory) (current_time : Option ℚ) :
    ClusterMemory :=
  (m.cleanupArchivePass current_time).limitArchive

/-- `cluster.state = ClusterState.LOST` seen through the dict: the in-place
mutation performed at line 439. -/
def forceLost (l : List (ℕ × TrackedCluster)) (u : ℕ) : List (ℕ × TrackedCluster) :=
  dictModify l u (fun c => { c with state := ClusterState.lost })

/-- Replace the active-cluster dict of a memory. -/
def withActive (m : ClusterMemory) (l : List (ℕ × TrackedCluster)) : ClusterMemory :=
  { m with active_clusters := l }

/-- The loop body of `forceClearClustersByCategory` (lines 435-441): if the
uuid is still active, force its state to `LOST` (a mutation of the object
held by the dict) and archive it, counting it as cleared. -/
def forceClearStep (acc : ℕ × ClusterMemory) (u : ℕ) : ℕ × ClusterMemory :=
  match lookupKey acc.2.active_clusters u with
  | some _ =>
      (acc.1 + 1, ((withActive acc.2 (forceLost acc.2.active_clusters u)).archive u))
  | none => acc

/-- `ClusterMemory.forceClearClustersByCategory` (lines 416-447): force every
matching cluster to `LOST` and archive it; returns the number cleared. -/
def ClusterMemory.forceClearClustersByCategory (m : ClusterMemory)
    (scene_id category : String) : ℕ × ClusterMemory :=
  let clusters_to_archive := (m.active_clusters.filter
    (fun kv => decide (kv.2.scene_id = scene_id) && decide (kv.2.category = category))).map
      (fun kv => kv.1)
  clusters_to_archive.foldl forceClearStep (0, m)

/-! ## Dictionary lemmas -/

section DictLemmas

variable {K V : Type} [DecidableEq K]

lemma dictKeys_nil : dictKeys ([] : List (K × V)) = [] := rfl

lemma dictKeys_cons {kv : K × V} {t : List (K × V)} :
    dictKeys (kv :: t) = kv.1 :: dictKeys t := rfl

lemma lookupKey_eq_none {l : List (K × V)} {k : K} :
    lookupKey l k = none ↔ k ∉ dictKeys l := by
  induction l with
  | nil => simp [lookupKey, dictKeys]
  | cons kv t ih =>
      rw [dictKeys_cons]
      by_cases h : kv.1 = k
      · subst h; simp [lookupKey]
      · simp only [lookupKey, if_neg h, ih, List.mem_cons]
        constructor
        · intro hn hor
          rcases hor with h1 | h1
          · exact h h1.symm
          · exact hn h1
        · intro hn h1
          exact hn (Or.inr h1)

lemma lookupKey_isSome {l : List (K × V)} {k : K} :
    (lookupKey l k).isSome ↔ k ∈ dictKeys l := by
  constructor
  · intro h
    by_contra hn
    rw [← lookupKey_eq_none] at hn
    rw [hn] at h
    simp at h
  · intro h
    cases he : lookupKey l k with
    | none => exact absurd (lookupKey_eq_none.mp he) (by simp [h])
    | some v => simp

lemma lookupKey_mem {l : List (K × V)} {k : K} {v : V}
    (h : lookupKey l k = some v) : (k, v) ∈ l := by
  induction l with
  | nil => simp [lookupKey] at h
  | cons kv t ih =>
      obtain ⟨k0, v0⟩ := kv
      by_cases hk : k0 = k
      · subst hk
        simp [lookupKey] at h
        subst h
        exact List.mem_cons_self _ _
      · simp [lookupKey, hk] at h
        exact List.mem_cons_of_mem _ (ih h)

lemma mem_lookupKey {l : List (K × V)} {k : K} {v : V}
    (hnd : (dictKeys l).Nodup) (h : (k, v) ∈ l) : lookupKey l k = some v := by
  induction l with
  | nil => simp at h
  | cons kv t ih =>
      rw [dictKeys_cons] at hnd
      have hnd1 := (List.nodup_cons.mp hnd).1
      have hnd2 := (List.nodup_cons.mp hnd).2
      rcases List.mem_cons.mp h with h1 | h1
      · subst h1; simp [lookupKey]
      · have hk : kv.1 ≠ k := by
          intro he
          apply hnd1
          rw [he]
          exact List.mem_map_of_mem (fun x => x.1) h1
        simp only [lookupKey, if_neg hk]
        exact ih hnd2 h1

lemma lookupKey_dictDelete_ne {l : List (K × V)} {k k' : K} (h : k' ≠ k) :
    lookupKey (dictDelete l k) k' = lookupKey l k' := by
  induction l with
  | nil => rfl
  | cons kv t ih =>
      by_cases hk : kv.1 = k
      · subst hk
        have hkk : kv.1 ≠ k' := fun he => h he.symm
        simp [dictDelete, lookupKey, hkk]
      · simp only [dictDelete, if_neg hk, lookupKey]
        rw [ih]

lemma dictDelete_eq_filter {l : List (K × V)} {k : K}
    (hnd : (dictKeys l).Nodup) :
    dictDelete l k = l.filter (fun kv => decide (kv.1 ≠ k)) := by
  induction l with
  | nil => rfl
  | cons kv t ih =>
      rw [dictKeys_cons] at hnd
      have hnd1 := (List.nodup_cons.mp hnd).1
      have hnd2 := (List.nodup_cons.mp hnd).2
      by_cases hk : kv.1 = k
      · subst hk
        have hfil : t.filter (fun kv' => decide (kv'.1 ≠ kv.1)) = t := by
          apply List.filter_eq_self.mpr
          intro a ha
          simp only [decide_eq_true_eq]
          intro he
          apply hnd1
          rw [← he]
          exact List.mem_map_of_mem (fun x => x.1) ha
        simp only [dictDelete]
        rw [List.filter_cons_of_neg (by simp), hfil]
        simp
      · simp only [dictDelete, if_neg hk, ih hnd2]
        rw [List.filter_cons_of_pos (by simp [hk])]

lemma dictSet_of_not_mem {l : List (K × V)} {k : K} {v : V}
    (h : k ∉ dictKeys l) : dictSet l k v = l ++ [(k, v)] := by
  induction l with
  | nil => rfl
  | cons kv t ih =>
      rw [dictKeys_cons] at h
      have hk : kv.1 ≠ k := fun he => h (he ▸ List.mem_cons_self _ _)
      have ht : k ∉ dictKeys t := fun he => h (List.mem_cons_of_mem _ he)
      simp [dictSet, hk, ih ht]

lemma dictModify_filter_ne {l : List (K × V)} {k : K} {f : V → V} :
    (dictModify l k f).filter (fun kv => decide (kv.1 ≠ k))
      = l.filter (fun kv => decide (kv.1 ≠ k)) := by
  induction l with
  | nil => rfl
  | cons kv t ih =>
      simp only [dictModify, List.map_cons] at ih ⊢
      by_cases hk : kv.1 = k
      · rw [if_pos hk, List.filter_cons_of_neg (by simp [hk]),
          List.filter_cons_of_neg (by simp [hk]), ih]
      · rw [if_neg hk, List.filter_cons_of_pos (by simp [hk]),
          List.filter_cons_of_pos (by simp [hk]), ih]

lemma lookupKey_dictModify_self {l : List (K × V)} {k : K} {f : V → V} :
    lookupKey (dictModify l k f) k = (lookupKey l k).map f := by
  induction l with
  | nil => rfl
  | cons kv t ih =>
      simp only [dictModify, List.map_cons] at ih ⊢
      by_cases hk : kv.1 = k
      · rw [if_pos hk]
        simp [lookupKey, hk]
      · rw [if_neg hk]
        simp only [lookupKey, if_neg hk]
        exact ih

lemma lookupKey_dictModify_ne {l : List (K × V)} {k k' : K} {f : V → V}
    (hne : k' ≠ k) :
    lookupKey (dictModify l k f) k' = lookupKey l k' := by
  induction l with
  | nil => rfl
  | cons kv t ih =>
      simp only [dictModify, List.map_cons] at ih ⊢
      by_cases h1 : kv.1 = k
      · have h2 : kv.1 ≠ k' := by rw [h1]; exact fun he => hne he.symm
        rw [if_pos h1]
        simp only [lookupKey]
        rw [if_neg (by simpa [h1] using h2), if_neg h2]
        exact ih
      · rw [if_neg h1]
        simp only [lookupKey]
        by_cases h2 : kv.1 = k'
        · rw [if_pos h2, if_pos h2]
        · rw [if_neg h2, if_neg h2]
          exact ih

lemma dictKeys_dictModify {l : List (K × V)} {k : K} {f : V → V} :
    dictKeys (dictModify l k f) = dictKeys l := by
  simp only [dictKeys, dictModify, List.map_map]
  apply List.map_congr_left
  intro kv hkv
  by_cases h : kv.1 = k <;> simp [h]

lemma dictKeys_append {l l' : List (K × V)} :
    dictKeys (l ++ l') = dictKeys l ++ dictKeys l' := by
  simp [dictKeys]

lemma nodup_key_unique {l : List (K × V)} (hnd : (dictKeys l).Nodup)
    {k : K} {v v' : V} (h : (k, v) ∈ l) (h' : (k, v') ∈ l) : v = v' := by
  have h1 := mem_lookupKey hnd h
  have h2 := mem_lookupKey hnd h'
  rw [h1] at h2
  exact Option.some.inj h2

end DictLemmas

/-! ## Sort lemmas -/

lemma insertByKey_perm {α : Type} (key : α → ℚ) (a : α) (l : List α) :
    List.Perm (insertByKey key a l) (a :: l) := by
  induction l with
  | nil => rfl
  | cons b t ih =>
      by_cases h : key a ≤ key b
      · simp [insertByKey, h]
      · have h1 : List.Perm (b :: insertByKey key a t) (b :: a :: t) :=
          List.Perm.cons b ih
        have h2 : List.Perm (b :: a :: t) (a :: b :: t) := List.Perm.swap a b t
        simpa [insertByKey, h] using h1.trans h2


lemma sortByKey_perm {α : Type} (key : α → ℚ) (l : List α) :
    List.Perm (sortByKey key l) l := by
  induction l with
  | nil => exact List.Perm.refl _
  | cons a t ih =>
      have h1 : List.Perm (insertByKey key a (sortByKey key t)) (a :: sortByKey key t) :=
        insertByKey_perm key a (sortByKey key t)
      exact h1.trans (List.Perm.cons a ih)

lemma insertByKey_pairwise {α : Type} (key : α → ℚ) (a : α) (l : List α)
    (h : List.Pairwise (fun x y => key x ≤ key y) l) :
    List.Pairwise (fun x y => key x ≤ key y) (insertByKey key a l) := by
  induction l with
  | nil => simp [insertByKey]
  | cons b t ih =>
      rcases List.pairwise_cons.mp h with ⟨hb, ht⟩
      by_cases hab : key a ≤ key b
      · rw [insertByKey, if_pos hab]
        refine List.pairwise_cons.mpr ⟨?_, h⟩
        intro x hx
        rcases List.mem_cons.mp hx with h1 | h1
        · subst h1; exact hab
        · exact le_trans hab (hb x h1)
      · rw [insertByKey, if_neg hab]
        refine List.pairwise_cons.mpr ⟨?_, ih ht⟩
        intro x hx
        have hx' := (insertByKey_perm key a t).mem_iff.mp hx
        rcases List.mem_cons.mp hx' with h1 | h1
        · subst h1; exact le_of_not_le hab
        · exact hb x h1

lemma sortByKey_pairwise {α : Type} (key : α → ℚ) (l : List α) :
    List.Pairwise (fun x y => key x ≤ key y) (sortByKey key l) := by
  induction l with
  | nil => exact List.Pairwise.nil
  | cons a t ih => exact insertByKey_pairwise key a (sortByKey key t) ih

/-! ## Characterisation of the archive fold in `cleanupOldClusters` -/

lemma archive_eq_of_lookup (m : ClusterMemory) (u : ℕ) (c : TrackedCluster)
    (h : lookupKey m.active_clusters u = some c) :
    (m.archive u).active_clusters = dictDelete m.active_clusters u ∧
    (m.archive u).archived_clusters = dictSet m.archived_clusters u c := by
  unfold ClusterMemory.archive
  rw [h]
  exact ⟨rfl, rfl⟩

lemma foldl_archive_spec (ks : List ℕ) (m : ClusterMemory)
    (hnda : (dictKeys m.active_clusters).Nodup)
    (hks : ks.Nodup)
    (hsub : ∀ k ∈ ks, k ∈ dictKeys m.active_clusters)
    (hdisj : ∀ k ∈ ks, k ∉ dictKeys m.archived_clusters) :
    (ks.foldl (fun acc u => acc.archive u) m).active_clusters
      = m.active_clusters.filter (fun kv => decide (kv.1 ∉ ks)) ∧
    (ks.foldl (fun acc u => acc.archive u) m).archived_clusters
      = m.archived_clusters ++ ks.filterMap
          (fun k => (lookupKey m.active_clusters k).map (fun c => (k, c))) := by
  induction ks generalizing m with
  | nil =>
      constructor
      · simp
      · simp
  | cons k ks ih =>
      -- the first archive step
      have hkmem : k ∈ dictKeys m.active_clusters := hsub k (List.mem_cons_self _ _)
      obtain ⟨c, hc⟩ : ∃ c, lookupKey m.active_clusters k = some c := by
        cases he : lookupKey m.active_clusters k with
        | none => exact absurd (lookupKey_eq_none.mp he) (by simp [hkmem])
        | some c => exact ⟨c, rfl⟩
      obtain ⟨ha1, ha2⟩ := archive_eq_of_lookup m k c hc
      have hdel : (m.archive k).active_clusters
          = m.active_clusters.filter (fun kv => decide (kv.1 ≠ k)) := by
        rw [ha1, dictDelete_eq_filter hnda]
      have hset : (m.archive k).archived_clusters
          = m.archived_clusters ++ [(k, c)] := by
        rw [ha2, dictSet_of_not_mem (hdisj k (List.mem_cons_self _ _))]
      -- hypotheses for the tail
      have hnda' : (dictKeys (m.archive k).active_clusters).Nodup := by
        rw [hdel]
        unfold dictKeys at hnda ⊢
        exact List.Nodup.sublist
          ((List.filter_sublist m.active_clusters).map (fun kv => kv.1)) hnda
      have hks' : ks.Nodup := (List.nodup_cons.mp hks).2
      have hknotks : k ∉ ks := (List.nodup_cons.mp hks).1
      have hsub' : ∀ k' ∈ ks, k' ∈ dictKeys (m.archive k).active_clusters := by
        intro k' hk'
        have h1 : k' ∈ dictKeys m.active_clusters := hsub k' (List.mem_cons_of_mem _ hk')
        have hne : k' ≠ k := fun he => hknotks (he ▸ hk')
        rw [hdel]
        obtain ⟨kv, hkv, hfst⟩ := List.mem_map.mp h1
        apply List.mem_map.mpr
        refine ⟨kv, ?_, hfst⟩
        apply List.mem_filter.mpr
        exact ⟨hkv, by simp [hfst, hne]⟩
      have hdisj' : ∀ k' ∈ ks, k' ∉ dictKeys (m.archive k).archived_clusters := by
        intro k' hk'
        have hne : k' ≠ k := fun he => hknotks (he ▸ hk')
        rw [hset, dictKeys_append]
        intro hmem
        rcases List.mem_append.mp hmem with h1 | h1
        · exact hdisj k' (List.mem_cons_of_mem _ hk') h1
        · simp [dictKeys] at h1
          exact hne h1
      obtain ⟨ih1, ih2⟩ := ih (m.archive k) hnda' hks' hsub' hdisj'
      have hlook : ∀ k' ∈ ks, lookupKey (m.archive k).active_clusters k'
          = lookupKey m.active_clusters k' := by
        intro k' hk'
        have hne : k' ≠ k := fun he => hknotks (he ▸ hk')
        rw [ha1]
        exact lookupKey_dictDelete_ne hne
      constructor
      · rw [List.foldl_cons, ih1, hdel, List.filter_filter]
        apply List.filter_congr
        intro kv hkv
        by_cases h1 : kv.1 = k
        · simp [h1]
        · by_cases h2 : kv.1 ∈ ks <;> simp [h1, h2]
      · rw [List.foldl_cons, ih2, hset]
        have hcongr : List.filterMap
            (fun k0 => (lookupKey (m.archive k).active_clusters k0).map
              (fun c0 => (k0, c0))) ks
            = List.filterMap
              (fun k0 => (lookupKey m.active_clusters k0).map
                (fun c0 => (k0, c0))) ks := by
          apply List.filterMap_congr
          intro k' hk'
          rw [hlook k' hk']
        have hfm : List.filterMap
            (fun k0 => (lookupKey m.active_clusters k0).map (fun c0 => (k0, c0))) (k :: ks)
            = (k, c) :: List.filterMap
              (fun k0 => (lookupKey m.active_clusters k0).map (fun c0 => (k0, c0))) ks := by
          simp only [List.filterMap_cons, hc, Option.map_some']
        rw [hfm, hcongr]
        simp [List.append_assoc]



lemma length_dictDelete_of_mem {K V : Type} [DecidableEq K]
    {l : List (K × V)} {k : K} (hk : k ∈ dictKeys l) :
    (dictDelete l k).length = l.length - 1 := by
  induction l with
  | nil => simp [dictKeys] at hk
  | cons kv t ih =>
      by_cases h : kv.1 = k
      · simp [dictDelete, h]
      · rw [dictKeys_cons] at hk
        have hkt : k ∈ dictKeys t := by
          rcases List.mem_cons.mp hk with h1 | h1
          · exact absurd h1.symm h
          · exact h1
        have hlen : 1 ≤ t.length := by
          rcases List.mem_map.mp hkt with ⟨kv', hkv', -⟩
          exact List.length_pos.mpr (List.ne_nil_of_mem hkv')
        simp [dictDelete, h, ih hkt]
        omega

lemma foldl_dictDelete_spec {K V : Type} [DecidableEq K] (ks : List K) :
    ∀ (l : List (K × V)), (dictKeys l).Nodup → ks.Nodup →
      (∀ k ∈ ks, k ∈ dictKeys l) →
      ks.foldl (fun acc k => dictDelete acc k) l
        = l.filter (fun kv => decide (kv.1 ∉ ks)) ∧
      (ks.foldl (fun acc k => dictDelete acc k) l).length = l.length - ks.length := by
  induction ks with
  | nil =>
      intro l _ _ _
      constructor
      · simp
      · simp
  | cons k ks ih =>
      intro l hnd hks hsub
      have hdel : dictDelete l k = l.filter (fun kv => decide (kv.1 ≠ k)) :=
        dictDelete_eq_filter hnd
      have hnd' : (dictKeys (dictDelete l k)).Nodup := by
        rw [hdel]
        unfold dictKeys at hnd ⊢
        exact List.Nodup.sublist ((List.filter_sublist l).map (fun kv => kv.1)) hnd
      have hknotks := (List.nodup_cons.mp hks).1
      have hks' := (List.nodup_cons.mp hks).2
      have hsub' : ∀ k' ∈ ks, k' ∈ dictKeys (dictDelete l k) := by
        intro k' hk'
        have h1 : k' ∈ dictKeys l := hsub k' (List.mem_cons_of_mem _ hk')
        have hne : k' ≠ k := fun he => hknotks (he ▸ hk')
        rw [hdel]
        obtain ⟨kv, hkv, hfst⟩ := List.mem_map.mp h1
        apply List.mem_map.mpr
        exact ⟨kv, List.mem_filter.mpr ⟨hkv, by simp [hfst, hne]⟩, hfst⟩
      obtain ⟨ih1, ih2⟩ := ih (dictDelete l k) hnd' hks' hsub'
      constructor
      · rw [List.foldl_cons, ih1, hdel, List.filter_filter]
        apply List.filter_congr
        intro kv _
        by_cases h1 : kv.1 = k
        · simp [h1]
        · by_cases h2 : kv.1 ∈ ks <;> simp [h1, h2]
      · rw [List.foldl_cons, ih2,
          length_dictDelete_of_mem (hsub k (List.mem_cons_self _ _))]
        simp only [List.length_cons]
        omega

lemma dictKeys_filterMap_lookup {K V : Type} [DecidableEq K]
    {ks : List K} {l : List (K × V)} (h : ∀ k ∈ ks, k ∈ dictKeys l) :
    dictKeys (ks.filterMap (fun k => (lookupKey l k).map (fun c => (k, c)))) = ks := by
  induction ks with
  | nil => rfl
  | cons k ks ih =>
      have hk : k ∈ dictKeys l := h k (List.mem_cons_self _ _)
      obtain ⟨c, hc⟩ : ∃ c, lookupKey l k = some c := by
        cases he : lookupKey l k with
        | none => exact absurd (lookupKey_eq_none.mp he) (by simp [hk])
        | some c => exact ⟨c, rfl⟩
      have hfm : List.filterMap
          (fun k0 => (lookupKey l k0).map (fun c0 => (k0, c0))) (k :: ks)
          = (k, c) :: List.filterMap
            (fun k0 => (lookupKey l k0).map (fun c0 => (k0, c0))) ks := by
        simp only [List.filterMap_cons, hc, Option.map_some']
      rw [hfm, dictKeys_cons, ih (fun k' hk' => h k' (List.mem_cons_of_mem _ hk'))]

lemma limitArchive_active (m : ClusterMemory) :
    m.limitArchive.active_clusters = m.active_clusters := by
  unfold ClusterMemory.limitArchive
  split <;> rfl



/-- Claim C9: on a cleanup pass at time `now`, every active cluster in state
`LOST` whose time since `last_seen` exceeds `ARCHIVE_TIME_THRESHOLD` (5.0 s,
hardcoded) is moved out of the active set into the archive, and whenever the
archive then holds more than `MAX_ARCHIVED_CLUSTERS = 50` clusters, entries
that are oldest by `last_seen` are evicted until exactly 50 remain.  The
`Nodup`/disjointness hypotheses state that the two Python dicts have unique,
non-overlapping keys. -/
theorem cleanup_archival_policy (m : ClusterMemory) (now : ℚ)
    (hnda : (dictKeys m.active_clusters).Nodup)
    (hndar : (dictKeys m.archived_clusters).Nodup)
    (hdisj : ∀ k, k ∈ dictKeys m.active_clusters → k ∉ dictKeys m.archived_clusters) :
    (∀ u c, (u, c) ∈ m.active_clusters → c.state = ClusterState.lost →
        now - c.last_seen > ARCHIVE_TIME_THRESHOLD →
        lookupKey (m.cleanupOldClusters (some now)).active_clusters u = none ∧
          (u, c) ∈ (m.cleanupArchivePass (some now)).archived_clusters) ∧
    ((m.cleanupArchivePass (some now)).archived_clusters.length > MAX_ARCHIVED_CLUSTERS →
        (m.cleanupOldClusters (some now)).archived_clusters.length = MAX_ARCHIVED_CLUSTERS) ∧
    ((m.cleanupArchivePass (some now)).archived_clusters.length ≤ MAX_ARCHIVED_CLUSTERS →
        (m.cleanupOldClusters (some now)).archived_clusters
          = (m.cleanupArchivePass (some now)).archived_clusters) ∧
    (∀ kv, kv ∈ (m.cleanupArchivePass (some now)).archived_clusters →
        kv ∉ (m.cleanupOldClusters (some now)).archived_clusters →
        ∀ kv', kv' ∈ (m.cleanupOldClusters (some now)).archived_clusters →
          kv.2.last_seen ≤ kv'.2.last_seen) := by
  -- the list of uuids archived by the pass
  have hks : m.cleanupArchivePass (some now)
      = ((m.active_clusters.filter
          (fun kv => kv.2.shouldBeArchived (some now) ARCHIVE_TIME_THRESHOLD)).map
            (fun kv => kv.1)).foldl (fun acc u => acc.archive u) m := rfl
  generalize hKS : (m.active_clusters.filter
      (fun kv => kv.2.shouldBeArchived (some now) ARCHIVE_TIME_THRESHOLD)).map
        (fun kv => kv.1) = ks at hks
  have hksnd : ks.Nodup := by
    rw [← hKS]
    have hnda' : (m.active_clusters.map (fun kv => kv.1)).Nodup := hnda
    exact List.Nodup.sublist
      ((List.filter_sublist _).map (fun kv : ℕ × TrackedCluster => kv.1)) hnda' 
  have hkssub : ∀ k ∈ ks, k ∈ dictKeys m.active_clusters := by
    intro k hk
    rw [← hKS] at hk
    obtain ⟨kv, hkv, hfst⟩ := List.mem_map.mp hk
    rw [← hfst]
    exact List.mem_map_of_mem _ (List.mem_of_mem_filter hkv)
  have hksdisj : ∀ k ∈ ks, k ∉ dictKeys m.archived_clusters :=
    fun k hk => hdisj k (hkssub k hk)
  obtain ⟨hact, harch⟩ := foldl_archive_spec ks m hnda hksnd hkssub hksdisj
  rw [← hks] at hact harch
  -- keys of the intermediate archive
  have hkeys_inter : dictKeys ((m.cleanupArchivePass (some now)).archived_clusters)
      = dictKeys m.archived_clusters ++ ks := by
    rw [harch, dictKeys_append, dictKeys_filterMap_lookup hkssub]
  have hnd_inter : (dictKeys ((m.cleanupArchivePass (some now)).archived_clusters)).Nodup := by
    rw [hkeys_inter]
    exact List.Nodup.append hndar hksnd
      (fun k hk1 hk2 => hksdisj k hk2 hk1)
  -- the active side survives limitArchive untouched
  have hlim_active : (m.cleanupOldClusters (some now)).active_clusters
      = (m.cleanupArchivePass (some now)).active_clusters := by
    unfold ClusterMemory.cleanupOldClusters
    exact limitArchive_active _
  refine ⟨?_, ?_, ?_, ?_⟩
  · -- archival of every overdue LOST cluster
    intro u c hmem hlost htime
    have hpred : (u, c).2.shouldBeArchived (some now) ARCHIVE_TIME_THRESHOLD = true := by
      simp [TrackedCluster.shouldBeArchived, hlost, htime]
    have huks : u ∈ ks := by
      rw [← hKS]
      exact List.mem_map_of_mem _ (List.mem_filter.mpr ⟨hmem, hpred⟩)
    constructor
    · rw [hlim_active, hact]
      apply lookupKey_eq_none.mpr
      intro hin
      obtain ⟨kv, hkv, hfst⟩ := List.mem_map.mp hin
      have := (List.mem_filter.mp hkv).2
      rw [hfst] at this
      simp [huks] at this
    · rw [harch]
      apply List.mem_append.mpr
      right
      apply List.mem_filterMap.mpr
      exact ⟨u, huks, by rw [mem_lookupKey hnda hmem]; rfl⟩
  · -- overfull archive is trimmed to exactly the cap
    intro hgt
    unfold ClusterMemory.cleanupOldClusters ClusterMemory.limitArchive
    rw [if_pos hgt]
    have hrnd : (((sortByKey (fun kv => kv.2.last_seen)
        (m.cleanupArchivePass (some now)).archived_clusters).take
          ((m.cleanupArchivePass (some now)).archived_clusters.length
            - MAX_ARCHIVED_CLUSTERS)).map (fun kv => kv.1)).Nodup := by
      have hnd_inter' : ((m.cleanupArchivePass (some now)).archived_clusters.map
          (fun kv => kv.1)).Nodup := hnd_inter
      have hperm : List.Perm ((sortByKey (fun kv : ℕ × TrackedCluster => kv.2.last_seen)
          (m.cleanupArchivePass (some now)).archived_clusters).map (fun kv => kv.1))
          ((m.cleanupArchivePass (some now)).archived_clusters.map (fun kv => kv.1)) :=
        (sortByKey_perm _ _).map _
      rw [List.map_take]
      exact List.Nodup.sublist (List.take_sublist _ _) (hperm.nodup_iff.mpr hnd_inter')
    have hrsub : ∀ k ∈ ((sortByKey (fun kv => kv.2.last_seen)
        (m.cleanupArchivePass (some now)).archived_clusters).take
          ((m.cleanupArchivePass (some now)).archived_clusters.length
            - MAX_ARCHIVED_CLUSTERS)).map (fun kv => kv.1),
        k ∈ dictKeys ((m.cleanupArchivePass (some now)).archived_clusters) := by
      intro k hk
      obtain ⟨kv, hkv, hfst⟩ := List.mem_map.mp hk
      have h1 : kv ∈ sortByKey (fun kv => kv.2.last_seen)
          (m.cleanupArchivePass (some now)).archived_clusters :=
        List.mem_of_mem_take hkv
      have h2 : kv ∈ (m.cleanupArchivePass (some now)).archived_clusters :=
        (sortByKey_perm _ _).mem_iff.mp h1
      rw [← hfst]
      exact List.mem_map_of_mem _ h2
    obtain ⟨-, hlen⟩ := foldl_dictDelete_spec _ _ hnd_inter hrnd hrsub
    rw [hlen, List.length_map, List.length_take]
    have hsortlen : (sortByKey (fun kv => kv.2.last_seen)
        (m.cleanupArchivePass (some now)).archived_clusters).length
        = (m.cleanupArchivePass (some now)).archived_clusters.length :=
      (sortByKey_perm _ _).length_eq
    rw [hsortlen]
    unfold MAX_ARCHIVED_CLUSTERS at hgt ⊢
    omega
  · -- an archive within the cap is left alone
    intro hle
    unfold ClusterMemory.cleanupOldClusters ClusterMemory.limitArchive
    rw [if_neg (by omega)]
  · -- evicted entries are the oldest by last_seen
    intro kv hkv hkvout kv' hkv'
    by_cases hgt : (m.cleanupArchivePass (some now)).archived_clusters.length
        > MAX_ARCHIVED_CLUSTERS
    case neg =>
      exfalso
      apply hkvout
      unfold ClusterMemory.cleanupOldClusters ClusterMemory.limitArchive
      rw [if_neg hgt]
      exact hkv
    case pos =>
      have hfin : (m.cleanupOldClusters (some now)).archived_clusters
          = (((sortByKey (fun kv => kv.2.last_seen)
              (m.cleanupArchivePass (some now)).archived_clusters).take
                ((m.cleanupArchivePass (some now)).archived_clusters.length
                  - MAX_ARCHIVED_CLUSTERS)).map (fun kv => kv.1)).foldl
            (fun l k => dictDelete l k) (m.cleanupArchivePass (some now)).archived_clusters := by
        unfold ClusterMemory.cleanupOldClusters ClusterMemory.limitArchive
        rw [if_pos hgt]
      have hrnd : (((sortByKey (fun kv => kv.2.last_seen)
          (m.cleanupArchivePass (some now)).archived_clusters).take
            ((m.cleanupArchivePass (some now)).archived_clusters.length
              - MAX_ARCHIVED_CLUSTERS)).map (fun kv => kv.1)).Nodup := by
        have hnd_inter' : ((m.cleanupArchivePass (some now)).archived_clusters.map
            (fun kv => kv.1)).Nodup := hnd_inter
        have hperm : List.Perm ((sortByKey (fun kv : ℕ × TrackedCluster => kv.2.last_seen)
            (m.cleanupArchivePass (some now)).archived_clusters).map (fun kv => kv.1))
            ((m.cleanupArchivePass (some now)).archived_clusters.map (fun kv => kv.1)) :=
          (sortByKey_perm _ _).map _
        rw [List.map_take]
        exact List.Nodup.sublist (List.take_sublist _ _) (hperm.nodup_iff.mpr hnd_inter')
      have hrsub : ∀ k ∈ ((sortByKey (fun kv => kv.2.last_seen)
          (m.cleanupArchivePass (some now)).archived_clusters).take
            ((m.cleanupArchivePass (some now)).archived_clusters.length
              - MAX_ARCHIVED_CLUSTERS)).map (fun kv => kv.1),
          k ∈ dictKeys ((m.cleanupArchivePass (some now)).archived_clusters) := by
        intro k hk
        obtain ⟨kv0, hkv0, hfst⟩ := List.mem_map.mp hk
        have h1 : kv0 ∈ sortByKey (fun kv => kv.2.last_seen)
            (m.cleanupArchivePass (some now)).archived_clusters :=
          List.mem_of_mem_take hkv0
        have h2 : kv0 ∈ (m.cleanupArchivePass (some now)).archived_clusters :=
          (sortByKey_perm _ _).mem_iff.mp h1
        rw [← hfst]
        exact List.mem_map_of_mem _ h2
      obtain ⟨hfil, -⟩ := foldl_dictDelete_spec _ _ hnd_inter hrnd hrsub
      rw [hfin, hfil] at hkvout hkv'
      -- kv was filtered out, so its key is among the removed (oldest) keys
      have hkvrem : kv.1 ∈ ((sortByKey (fun kv => kv.2.last_seen)
          (m.cleanupArchivePass (some now)).archived_clusters).take
            ((m.cleanupArchivePass (some now)).archived_clusters.length
              - MAX_ARCHIVED_CLUSTERS)).map (fun kv => kv.1) := by
        by_contra hnot
        exact hkvout (List.mem_filter.mpr ⟨hkv, by simpa using hnot⟩)
      obtain ⟨kv0, hkv0take, hkv0fst⟩ := List.mem_map.mp hkvrem
      have hkv0mem : kv0 ∈ (m.cleanupArchivePass (some now)).archived_clusters :=
        (sortByKey_perm _ _).mem_iff.mp (List.mem_of_mem_take hkv0take)
      have hkv0eq : kv0 = kv := by
        obtain ⟨k1, v1⟩ := kv0
        obtain ⟨k2, v2⟩ := kv
        simp only at hkv0fst
        subst hkv0fst
        have := nodup_key_unique hnd_inter hkv0mem hkv
        rw [this]
      -- kv' survives, so it lies in the kept suffix of the sorted archive
      have hkv'mem := (List.mem_filter.mp hkv').1
      have hkv'keep : kv'.1 ∉ ((sortByKey (fun kv => kv.2.last_seen)
          (m.cleanupArchivePass (some now)).archived_clusters).take
            ((m.cleanupArchivePass (some now)).archived_clusters.length
              - MAX_ARCHIVED_CLUSTERS)).map (fun kv => kv.1) := by
        have := (List.mem_filter.mp hkv').2
        simpa using this
      have hkv'sorted : kv' ∈ sortByKey (fun kv => kv.2.last_seen)
          (m.cleanupArchivePass (some now)).archived_clusters :=
        (sortByKey_perm _ _).mem_iff.mpr hkv'mem
      have hkv'drop : kv' ∈ (sortByKey (fun kv => kv.2.last_seen)
          (m.cleanupArchivePass (some now)).archived_clusters).drop
            ((m.cleanupArchivePass (some now)).archived_clusters.length
              - MAX_ARCHIVED_CLUSTERS) := by
        have hsplit := List.take_append_drop
          ((m.cleanupArchivePass (some now)).archived_clusters.length
            - MAX_ARCHIVED_CLUSTERS)
          (sortByKey (fun kv => kv.2.last_seen)
            (m.cleanupArchivePass (some now)).archived_clusters)
        rw [← hsplit] at hkv'sorted
        rcases List.mem_append.mp hkv'sorted with h1 | h1
        · exact absurd (List.mem_map_of_mem (fun kv => kv.1) h1) hkv'keep
        · exact h1
      -- pairwise sortedness across the split point
      have hpw := sortByKey_pairwise (fun kv => kv.2.last_seen)
        (m.cleanupArchivePass (some now)).archived_clusters
      rw [← List.take_append_drop
        ((m.cleanupArchivePass (some now)).archived_clusters.length
          - MAX_ARCHIVED_CLUSTERS)
        (sortByKey (fun kv => kv.2.last_seen)
          (m.cleanupArchivePass (some now)).archived_clusters)] at hpw
      have := (List.pairwise_append.mp hpw).2.2
      have hle := this kv0 hkv0take kv' hkv'drop
      rw [hkv0eq] at hle
      exact hle



/-- A synthetic `LOST` cluster last seen at time 10, used to instantiate the
archival-policy theorem. -/
def lostSampleCluster : TrackedCluster :=
  { sampleCluster with state := ClusterState.lost }

def sampleMemory : ClusterMemory := ClusterMemory.empty.add lostSampleCluster

/-- Claim C9 (witness): the archival-policy theorem applied to a concrete
memory holding one overdue `LOST` cluster at time 20. -/
theorem cleanup_archival_policy_witness :
    (∀ u c, (u, c) ∈ sampleMemory.active_clusters → c.state = ClusterState.lost →
        20 - c.last_seen > ARCHIVE_TIME_THRESHOLD →
        lookupKey (sampleMemory.cleanupOldClusters (some 20)).active_clusters u = none ∧
          (u, c) ∈ (sampleMemory.cleanupArchivePass (some 20)).archived_clusters) ∧
    ((sampleMemory.cleanupArchivePass (some 20)).archived_clusters.length > MAX_ARCHIVED_CLUSTERS →
        (sampleMemory.cleanupOldClusters (some 20)).archived_clusters.length = MAX_ARCHIVED_CLUSTERS) ∧
    ((sampleMemory.cleanupArchivePass (some 20)).archived_clusters.length ≤ MAX_ARCHIVED_CLUSTERS →
        (sampleMemory.cleanupOldClusters (some 20)).archived_clusters
          = (sampleMemory.cleanupArchivePass (some 20)).archived_clusters) ∧
    (∀ kv, kv ∈ (sampleMemory.cleanupArchivePass (some 20)).archived_clusters →
        kv ∉ (sampleMemory.cleanupOldClusters (some 20)).archived_clusters →
        ∀ kv', kv' ∈ (sampleMemory.cleanupOldClusters (some 20)).archived_clusters →
          kv.2.last_seen ≤ kv'.2.last_seen) :=
  cleanup_archival_policy sampleMemory 20 (by decide) (by decide) (by decide)


/-! ## Tracker state (ClusterTracker, cluster_analytics_tracker.py lines 572-752)

The tracker owns the memory; `uuid.uuid4()` is modelled by the `next_uuid`
supply. -/

structure TrackerState where
  memory : ClusterMemory
  next_uuid : ℕ
deriving DecidableEq

/-- `ClusterTracker.getActiveClusters` (lines 715-744); `scene_id = none` and
the empty string are both falsy in `if scene_id:`. -/
def TrackerState.getActiveClusters (t : TrackerState) (scene_id : Option String)
    (publishable_only : Bool) : List TrackedCluster :=
  let clusters : List TrackedCluster :=
    match scene_id with
    | some s =>
        if s = "" then t.memory.active_clusters.map (fun kv => kv.2)
        else t.memory.getClustersByScene s
    | none => t.memory.active_clusters.map (fun kv => kv.2)
  clusters.filterMap (fun c =>
    if c.state = ClusterState.lost then none
    else if publishable_only = true ∧ c.state ≠ ClusterState.active ∧
        c.state ≠ ClusterState.stable ∧ c.state ≠ ClusterState.fading then none
    else some c)

/-- `ClusterTracker.forceClearClustersByCategory` (lines 746-748). -/
def TrackerState.forceClearClustersByCategory (t : TrackerState)
    (scene_id category : String) : ℕ × TrackerState :=
  let r := t.memory.forceClearClustersByCategory scene_id category
  (r.1, { t with memory := r.2 })

/-! ## ClusterAnalyticsContext (cluster_analytics_context.py)

Only the parts reached by the claims are embedded: the DBSCAN parameter
store with its precedence chain, and the publish path.  The configuration is
a record of the values `ClusterAnalyticsConfig` reads from config.json. -/

structure AnalyticsConfig where
  category_dbscan_params : List (String × DbscanParams)
  default_eps : ℚ
  default_min_samples : ℤ
deriving DecidableEq

structure ContextState where
  config : AnalyticsConfig
  user_dbscan_params_by_scene : List (String × List (String × DbscanParams))
  cluster_tracker : TrackerState
deriving DecidableEq

/-- Python `category.lower()`, modelled character-wise (the repository uses
ASCII category names). -/
def pyLower (s : String) : String := ⟨s.data.map Char.toLower⟩

/-- `getDbscanParamsForCategory` (cluster_analytics_context.py, lines
144-173): per-scene user override, then category default, then global
default; all lookups use the lowercased category. -/
def ContextState.getDbscanParamsForCategory (ctx : ContextState) (category : String)
    (scene_id : Option String) : DbscanParams :=
  let category_lower := pyLower category
  let from_scene : Option DbscanParams :=
    match scene_id with
    | some s =>
        if s = "" then none
        else
          match lookupKey ctx.user_dbscan_params_by_scene s with
          | some scene_params =>
              -- `if scene_params:` — the empty per-scene dict is falsy
              if scene_params = [] then none
              else lookupKey scene_params category_lower
          | none => none
    | none => none
  match from_scene with
  | some p => p
  | none =>
      match lookupKey ctx.config.category_dbscan_params category_lower with
      | some p => p
      | none => ⟨ctx.config.default_eps, ctx.config.default_min_samples⟩

/-- `setUserDbscanParamsForCategory` (cluster_analytics_context.py, lines
175-211): on a significant change relative to the currently effective
parameters, force-clear the scene's clusters of the lowercased category,
then store the new parameters. -/
def ContextState.setUserDbscanParamsForCategory (ctx : ContextState)
    (category : String) (eps : ℚ) (min_samples : ℤ) (scene_id : Option String) :
    ContextState :=
  match scene_id with
  | none => ctx
  | some s =>
      if s = "" then ctx
      else
        let category_lower := pyLower category
        let current_params := ctx.getDbscanParamsForCategory category_lower (some s)
        let new_params : DbscanParams := ⟨eps, min_samples⟩
        let eps_change_ratio :=
          |new_params.eps - current_params.eps| / max current_params.eps 0.1
        let min_samples_changed := new_params.min_samples ≠ current_params.min_samples
        let tracker' :=
          if eps_change_ratio > 0.5 ∨ min_samples_changed then
            (ctx.cluster_tracker.forceClearClustersByCategory s category_lower).2
          else ctx.cluster_tracker
        let scene_params := (lookupKey ctx.user_dbscan_params_by_scene s).getD []
        { ctx with
            cluster_tracker := tracker'
            user_dbscan_params_by_scene := dictSet ctx.user_dbscan_params_by_scene s
              (dictSet scene_params category_lower new_params) }

/-! ## Publish path (cluster_analytics_context.py, `_publishTrackedClusters`,
lines 448-493)

The MQTT serialisation (`toDict`, JSON) and the unordered `set` of categories
in the summary are abstracted; the batch carries the published clusters
themselves. -/

structure DetectionData where
  name : String
  timestamp : Option ℚ
deriving DecidableEq

structure ClusterBatch where
  batch_scene_id : String
  scene_name : String
  timestamp : Option ℚ
  clusters : List TrackedCluster
  summary_total_objects : ℕ
deriving DecidableEq

/-- `_publishTrackedClusters`: the cluster batch message content for one
scene, built from `getActiveClusters(scene_id, publishable_only=True)`. -/
def publishTrackedClusters (t : TrackerState) (scene_id : String)
    (dd : DetectionData) : ClusterBatch :=
  let tracked_clusters := t.getActiveClusters (some scene_id) true
  { batch_scene_id := scene_id
    scene_name := dd.name
    timestamp := dd.timestamp
    clusters := tracked_clusters
    summary_total_objects := (tracked_clusters.map (fun c => c.object_count)).sum }


/-! ## Characterisation of the force-clear fold -/

lemma withActive_archived (m : ClusterMemory) (l : List (ℕ × TrackedCluster)) :
    (withActive m l).archived_clusters = m.archived_clusters := rfl

lemma withActive_active (m : ClusterMemory) (l : List (ℕ × TrackedCluster)) :
    (withActive m l).active_clusters = l := rfl

lemma forceClearStep_of_lookup (acc0 : ℕ) (m : ClusterMemory) (k : ℕ)
    (c : TrackedCluster) (hc : lookupKey m.active_clusters k = some c) :
    forceClearStep (acc0, m) k
      = (acc0 + 1, (withActive m (forceLost m.active_clusters k)).archive k) := by
  simp only [forceClearStep, hc]

lemma foldl_forceClearStep_spec (ks : List ℕ) :
    ∀ (m : ClusterMemory) (acc0 : ℕ),
      (dictKeys m.active_clusters).Nodup → ks.Nodup →
      (∀ k ∈ ks, k ∈ dictKeys m.active_clusters) →
      (∀ k ∈ ks, k ∉ dictKeys m.archived_clusters) →
      (ks.foldl forceClearStep (acc0, m)).2.active_clusters
        = m.active_clusters.filter (fun kv => decide (kv.1 ∉ ks)) ∧
      (ks.foldl forceClearStep (acc0, m)).2.archived_clusters
        = m.archived_clusters ++ ks.filterMap
            (fun k => (lookupKey m.active_clusters k).map
              (fun c => (k, { c with state := ClusterState.lost }))) := by
  induction ks with
  | nil =>
      intro m acc0 _ _ _ _
      constructor
      · simp
      · simp
  | cons k ks ih =>
      intro m acc0 hnda hks hsub hdisj
      have hkmem : k ∈ dictKeys m.active_clusters := hsub k (List.mem_cons_self _ _)
      obtain ⟨c, hc⟩ : ∃ c, lookupKey m.active_clusters k = some c := by
        cases he : lookupKey m.active_clusters k with
        | none => exact absurd (lookupKey_eq_none.mp he) (by simp [hkmem])
        | some c => exact ⟨c, rfl⟩
      have hlook_m1 : lookupKey (withActive m (forceLost m.active_clusters k)).active_clusters k
          = some { c with state := ClusterState.lost } := by
        rw [withActive_active, forceLost, lookupKey_dictModify_self, hc]
        rfl
      obtain ⟨ha1, ha2⟩ := archive_eq_of_lookup _ k _ hlook_m1
      have hnd_mod : (dictKeys (withActive m (forceLost m.active_clusters k)).active_clusters).Nodup := by
        rw [withActive_active, forceLost, dictKeys_dictModify]
        exact hnda
      have hactive_step : ((withActive m (forceLost m.active_clusters k)).archive k).active_clusters
          = m.active_clusters.filter (fun kv => decide (kv.1 ≠ k)) := by
        rw [ha1, dictDelete_eq_filter hnd_mod, withActive_active, forceLost]
        exact dictModify_filter_ne
      have harch_step : ((withActive m (forceLost m.active_clusters k)).archive k).archived_clusters
          = m.archived_clusters ++ [(k, { c with state := ClusterState.lost })] := by
        rw [ha2, withActive_archived]
        exact dictSet_of_not_mem (hdisj k (List.mem_cons_self _ _))
      have hknotks := (List.nodup_cons.mp hks).1
      have hks' := (List.nodup_cons.mp hks).2
      have hnda' : (dictKeys ((withActive m (forceLost m.active_clusters k)).archive k).active_clusters).Nodup := by
        rw [hactive_step]
        unfold dictKeys at hnda ⊢
        exact List.Nodup.sublist
          ((List.filter_sublist m.active_clusters).map (fun kv => kv.1)) hnda
      have hsub' : ∀ k' ∈ ks,
          k' ∈ dictKeys ((withActive m (forceLost m.active_clusters k)).archive k).active_clusters := by
        intro k' hk'
        have h1 : k' ∈ dictKeys m.active_clusters := hsub k' (List.mem_cons_of_mem _ hk')
        have hne : k' ≠ k := fun he => hknotks (he ▸ hk')
        rw [hactive_step]
        obtain ⟨kv, hkv, hfst⟩ := List.mem_map.mp h1
        apply List.mem_map.mpr
        exact ⟨kv, List.mem_filter.mpr ⟨hkv, by simp [hfst, hne]⟩, hfst⟩
      have hdisj' : ∀ k' ∈ ks,
          k' ∉ dictKeys ((withActive m (forceLost m.active_clusters k)).archive k).archived_clusters := by
        intro k' hk'
        have hne : k' ≠ k := fun he => hknotks (he ▸ hk')
        rw [harch_step, dictKeys_append]
        intro hmem
        rcases List.mem_append.mp hmem with h1 | h1
        · exact hdisj k' (List.mem_cons_of_mem _ hk') h1
        · simp [dictKeys] at h1
          exact hne h1
      obtain ⟨ih1, ih2⟩ := ih ((withActive m (forceLost m.active_clusters k)).archive k)
        (acc0 + 1) hnda' hks' hsub' hdisj'
      have hlookmod : ∀ k' ∈ ks,
          lookupKey ((withActive m (forceLost m.active_clusters k)).archive k).active_clusters k'
            = lookupKey m.active_clusters k' := by
        intro k' hk'
        have hne : k' ≠ k := fun he => hknotks (he ▸ hk')
        rw [ha1, lookupKey_dictDelete_ne hne, withActive_active, forceLost,
          lookupKey_dictModify_ne hne]
      rw [List.foldl_cons, forceClearStep_of_lookup acc0 m k c hc]
      constructor
      · rw [ih1, hactive_step, List.filter_filter]
        apply List.filter_congr
        intro kv _
        by_cases h1 : kv.1 = k
        · simp [h1]
        · by_cases h2 : kv.1 ∈ ks <;> simp [h1, h2]
      · rw [ih2, harch_step]
        have hcongr : List.filterMap
            (fun k0 => (lookupKey ((withActive m (forceLost m.active_clusters k)).archive k).active_clusters k0).map
              (fun c0 => (k0, { c0 with state := ClusterState.lost }))) ks
            = List.filterMap
              (fun k0 => (lookupKey m.active_clusters k0).map
                (fun c0 => (k0, { c0 with state := ClusterState.lost }))) ks := by
          apply List.filterMap_congr
          intro k' hk'
          rw [hlookmod k' hk']
        have hfm : List.filterMap
            (fun k0 => (lookupKey m.active_clusters k0).map
              (fun c0 => (k0, { c0 with state := ClusterState.lost }))) (k :: ks)
            = (k, { c with state := ClusterState.lost }) :: List.filterMap
              (fun k0 => (lookupKey m.active_clusters k0).map
                (fun c0 => (k0, { c0 with state := ClusterState.lost }))) ks := by
          simp only [List.filterMap_cons, hc, Option.map_some']
        rw [hfm, hcongr]
        simp [List.append_assoc]


/-! ## Claim C6: significant parameter change force-archives clusters -/

lemma setUser_tracker_of_significant (ctx : ContextState) (category : String)
    (eps : ℚ) (min_samples : ℤ) (s : String) (hs : ¬ s = "")
    (hsig : |eps - (ctx.getDbscanParamsForCategory (pyLower category) (some s)).eps|
          / max (ctx.getDbscanParamsForCategory (pyLower category) (some s)).eps 0.1 > 0.5
        ∨ min_samples ≠ (ctx.getDbscanParamsForCategory (pyLower category) (some s)).min_samples) :
    (ctx.setUserDbscanParamsForCategory category eps min_samples (some s)).cluster_tracker
      = (ctx.cluster_tracker.forceClearClustersByCategory s (pyLower category)).2 := by
  unfold ContextState.setUserDbscanParamsForCategory
  dsimp only
  rw [if_neg hs]
  dsimp only
  split
  · rfl
  · next hcond =>
      exfalso
      exact hcond hsig

/-- Claim C6 (amended): when the user updates `(eps, min_samples)` for a
scene and category and the change is significant relative to the currently
effective parameters, every existing cluster of that scene whose stored
category equals the lowercased update category is force-archived immediately
(removed from the active set and placed in the archive with state `LOST`).
Clusters whose stored category differs from the lowercased form — e.g. a
mixed-case category — are not cleared, because `forceClearClustersByCategory`
is called with `category.lower()` while cluster categories are stored
verbatim. -/
theorem significant_param_change_archives_clusters
    (ctx : ContextState) (category : String) (eps : ℚ) (min_samples : ℤ) (s : String)
    (hs : ¬ s = "")
    (hnda : (dictKeys ctx.cluster_tracker.memory.active_clusters).Nodup)
    (hdisj : ∀ k ∈ dictKeys ctx.cluster_tracker.memory.active_clusters,
        k ∉ dictKeys ctx.cluster_tracker.memory.archived_clusters)
    (hsig : |eps - (ctx.getDbscanParamsForCategory (pyLower category) (some s)).eps|
          / max (ctx.getDbscanParamsForCategory (pyLower category) (some s)).eps 0.1 > 0.5
        ∨ min_samples ≠ (ctx.getDbscanParamsForCategory (pyLower category) (some s)).min_samples) :
    ∀ u c, (u, c) ∈ ctx.cluster_tracker.memory.active_clusters →
      c.scene_id = s → c.category = pyLower category →
      lookupKey (ctx.setUserDbscanParamsForCategory category eps min_samples
          (some s)).cluster_tracker.memory.active_clusters u = none ∧
      (u, { c with state := ClusterState.lost })
        ∈ (ctx.setUserDbscanParamsForCategory category eps min_samples
            (some s)).cluster_tracker.memory.archived_clusters := by
  intro u c hmem hscene hcat
  have htr := setUser_tracker_of_significant ctx category eps min_samples s hs hsig
  have hmemo : (ctx.setUserDbscanParamsForCategory category eps min_samples
      (some s)).cluster_tracker.memory
      = (ctx.cluster_tracker.memory.forceClearClustersByCategory s (pyLower category)).2 := by
    rw [htr]
    rfl
  have hks : (ctx.cluster_tracker.memory.forceClearClustersByCategory s (pyLower category)).2
      = (((ctx.cluster_tracker.memory.active_clusters.filter
          (fun kv => decide (kv.2.scene_id = s) &&
            decide (kv.2.category = pyLower category))).map (fun kv => kv.1)).foldl
        forceClearStep (0, ctx.cluster_tracker.memory)).2 := rfl
  set ks := (ctx.cluster_tracker.memory.active_clusters.filter
      (fun kv => decide (kv.2.scene_id = s) &&
        decide (kv.2.category = pyLower category))).map (fun kv => kv.1) with hKS
  have hksnd : ks.Nodup := by
    rw [hKS]
    have hnda' : (ctx.cluster_tracker.memory.active_clusters.map (fun kv => kv.1)).Nodup := hnda
    exact List.Nodup.sublist
      ((List.filter_sublist _).map (fun kv : ℕ × TrackedCluster => kv.1)) hnda'
  have hkssub : ∀ k ∈ ks, k ∈ dictKeys ctx.cluster_tracker.memory.active_clusters := by
    intro k hk
    rw [hKS] at hk
    obtain ⟨kv, hkv, hfst⟩ := List.mem_map.mp hk
    rw [← hfst]
    exact List.mem_map_of_mem _ (List.mem_of_mem_filter hkv)
  have hksdisj : ∀ k ∈ ks, k ∉ dictKeys ctx.cluster_tracker.memory.archived_clusters :=
    fun k hk => hdisj k (hkssub k hk)
  obtain ⟨hact, harch⟩ := foldl_forceClearStep_spec ks ctx.cluster_tracker.memory 0
    hnda hksnd hkssub hksdisj
  have huks : u ∈ ks := by
    rw [hKS]
    exact List.mem_map.mpr
      ⟨(u, c), List.mem_filter.mpr ⟨hmem, by simp [hscene, hcat]⟩, rfl⟩
  constructor
  · rw [hmemo, hks, hact]
    apply lookupKey_eq_none.mpr
    intro hin
    obtain ⟨kv, hkv, hfst⟩ := List.mem_map.mp hin
    have := (List.mem_filter.mp hkv).2
    rw [hfst] at this
    simp [huks] at this
  · rw [hmemo, hks, harch]
    apply List.mem_append.mpr
    right
    apply List.mem_filterMap.mpr
    exact ⟨u, huks, by rw [mem_lookupKey hnda hmem]; rfl⟩

/-- A cluster whose stored category has mixed case. -/
def mixedCaseCluster : TrackedCluster :=
  mkTrackedCluster 0 "scene1" "Person" ⟨0, 0⟩ ⟨"circle"⟩ ⟨0, 0⟩ ["o1"] ⟨1, 3⟩ 10

def sampleConfig : AnalyticsConfig := ⟨[], 1, 3⟩

def mixedCaseContext : ContextState :=
  ⟨sampleConfig, [], ⟨ClusterMemory.empty.add mixedCaseCluster, 1⟩⟩

/-- Claim C6 (counterexample): updating the parameters for category
`"Person"` in a scene that holds a cluster whose stored category is
`"Person"` is a significant change (eps 1 → 10), yet the cluster is not
archived: `forceClearClustersByCategory` receives the lowercased category
`"person"`, which matches no stored cluster. -/
theorem significant_param_change_counterexample :
    (|10 - (mixedCaseContext.getDbscanParamsForCategory (pyLower "Person") (some "scene1")).eps|
        / max (mixedCaseContext.getDbscanParamsForCategory (pyLower "Person")
            (some "scene1")).eps 0.1 > 0.5) ∧
    lookupKey (mixedCaseContext.setUserDbscanParamsForCategory "Person" 10 3
        (some "scene1")).cluster_tracker.memory.active_clusters 0 = some mixedCaseCluster ∧
    (mixedCaseContext.setUserDbscanParamsForCategory "Person" 10 3
        (some "scene1")).cluster_tracker.memory.archived_clusters = [] := by
  refine ⟨by decide, by decide, by decide⟩

def personContext : ContextState :=
  ⟨sampleConfig, [], ⟨ClusterMemory.empty.add sampleCluster, 1⟩⟩

/-- Claim C6 (witness): the amended theorem applied to a concrete context
holding one `person` cluster, with a significant eps change 1 → 10. -/
theorem significant_param_change_witness :
    lookupKey (personContext.setUserDbscanParamsForCategory "person" 10 3
        (some "scene1")).cluster_tracker.memory.active_clusters 0 = none ∧
    (0, { sampleCluster with state := ClusterState.lost })
      ∈ (personContext.setUserDbscanParamsForCategory "person" 10 3
          (some "scene1")).cluster_tracker.memory.archived_clusters :=
  significant_param_change_archives_clusters personContext "person" 10 3 "scene1"
    (by decide) (by decide) (by decide) (by decide)
    0 sampleCluster (by decide) (by decide) (by decide)


/-! ## Claim C8: only ACTIVE, STABLE and FADING clusters are published -/

/-- Claim C8: for every scene (scene ids are nonempty strings), a cluster
appears in the published cluster batch message for that scene exactly when it
is one of the scene's tracked clusters and its state is `ACTIVE`, `STABLE`
or `FADING`; `NEW` and `LOST` clusters are never published. -/
theorem published_clusters_characterisation (t : TrackerState) (s : String)
    (dd : DetectionData) (hs : ¬ s = "") (c : TrackedCluster) :
    c ∈ (publishTrackedClusters t s dd).clusters ↔
      c ∈ t.memory.getClustersByScene s ∧
        (c.state = ClusterState.active ∨ c.state = ClusterState.stable ∨
          c.state = ClusterState.fading) := by
  have hclusters : (publishTrackedClusters t s dd).clusters
      = (t.memory.getClustersByScene s).filterMap (fun c =>
          if c.state = ClusterState.lost then none
          else if true = true ∧ c.state ≠ ClusterState.active ∧
              c.state ≠ ClusterState.stable ∧ c.state ≠ ClusterState.fading then none
          else some c) := by
    unfold publishTrackedClusters TrackerState.getActiveClusters
    dsimp only
    rw [if_neg hs]
  rw [hclusters]
  constructor
  · intro h
    obtain ⟨c', hc', hf⟩ := List.mem_filterMap.mp h
    have : c' = c ∧ (c'.state = ClusterState.active ∨ c'.state = ClusterState.stable ∨
        c'.state = ClusterState.fading) := by
      cases hstate : c'.state <;> simp [hstate] at hf <;> simp [hf, hstate]
    obtain ⟨he, hst⟩ := this
    subst he
    exact ⟨hc', hst⟩
  · intro ⟨hmem, hstate⟩
    apply List.mem_filterMap.mpr
    refine ⟨c, hmem, ?_⟩
    rcases hstate with h | h | h <;> simp [h]

/-- A tracker with one `ACTIVE` and one `LOST` cluster in scene1. -/
def publishSampleTracker : TrackerState :=
  ⟨(ClusterMemory.empty.add activeSampleCluster).add
      { lostSampleCluster with uuid := 1 }, 2⟩

/-- Claim C8 (witness): the characterisation applied to a tracker holding one
`ACTIVE` cluster and one `LOST` cluster in the same scene. -/
theorem published_clusters_witness :
    (activeSampleCluster ∈ (publishTrackedClusters publishSampleTracker "scene1"
        ⟨"Scene", some 10⟩).clusters ↔
      activeSampleCluster ∈ publishSampleTracker.memory.getClustersByScene "scene1" ∧
        (activeSampleCluster.state = ClusterState.active ∨
          activeSampleCluster.state = ClusterState.stable ∨
          activeSampleCluster.state = ClusterState.fading)) ∧
    ({ lostSampleCluster with uuid := 1 } ∈ (publishTrackedClusters publishSampleTracker
        "scene1" ⟨"Scene", some 10⟩).clusters ↔
      { lostSampleCluster with uuid := 1 }
          ∈ publishSampleTracker.memory.getClustersByScene "scene1" ∧
        ({ lostSampleCluster with uuid := 1 }.state = ClusterState.active ∨
          { lostSampleCluster with uuid := 1 }.state = ClusterState.stable ∨
          { lostSampleCluster with uuid := 1 }.state = ClusterState.fading)) :=
  ⟨published_clusters_characterisation publishSampleTracker "scene1" ⟨"Scene", some 10⟩
      (by decide) activeSampleCluster,
   published_clusters_characterisation publishSampleTracker "scene1" ⟨"Scene", some 10⟩
      (by decide) { lostSampleCluster with uuid := 1 }⟩


/-! ## Controller tracking dispatcher (controller/tracking.py) and dropped
metrics (controller/observability/metrics.py)

Per-category worker threads are modelled by their observable state: the
work queue and the published snapshot.  The OpenTelemetry counter
`scenescape_controller_mqtt_messages_dropped` is modelled as a map from
`(category, reason)` attribute pairs to counts; `inc_dropped` is a no-op
when metrics are not initialised/enabled, mirroring
`if instance: instance.counter_add(...)`. -/

def STREAMING_MODE : Bool := false
def BATCHED_MODE : Bool := true

structure TrackedObject where
  category : String
  oid : Option ℕ
deriving DecidableEq

/-- One queue item: `(objects, when, already_tracked_objects, mode)`. -/
structure WorkItem where
  objects : List TrackedObject
  whenTs : ℚ
  already_tracked_objects : List TrackedObject
  mode : Bool
deriving DecidableEq

/-- The observable state of one per-category `Tracking` thread. -/
structure CategoryTracker where
  queue : List WorkItem
  curObjects : List TrackedObject
  ref_camera_frame_rate : Option ℚ
deriving DecidableEq

def CategoryTracker.fresh : CategoryTracker := ⟨[], [], none⟩

structure MetricsState where
  enabled : Bool
  dropped : List ((String × String) × ℕ)
deriving DecidableEq

/-- `metrics.inc_dropped(attributes)` with `attributes = {category, reason}`:
increments the dropped-messages counter by exactly one when metrics are
enabled. -/
def MetricsState.inc_dropped (ms : MetricsState) (category reason : String) :
    MetricsState :=
  if ms.enabled then
    let bumped := dictSet ms.dropped (category, reason)
      (((lookupKey ms.dropped (category, reason)).getD 0) + 1)
    { ms with dropped := bumped }
  else ms

structure TrackingState where
  trackers : List (String × CategoryTracker)
  metrics : MetricsState
  next_oid : ℕ
deriving DecidableEq

/-- `Tracking._createTrackers` (tracking.py lines 87-94): lazily create a
tracker (with an empty queue) for each new category. -/
def createTrackers (st : TrackingState) (categories : List String) : TrackingState :=
  categories.foldl
    (fun acc category =>
      match lookupKey acc.trackers category with
      | some _ => acc
      | none => { acc with trackers := dictSet acc.trackers category CategoryTracker.fresh })
    st

/-- The per-category body of the loop in `Tracking.trackObjects`
(tracking.py lines 57-77); `_updateRefCameraFrameRate` and the
`use_tracker=False` branch assign fresh ids from the supply. -/
def trackObjectsStep (objects : List TrackedObject)
    (already_tracked_objects : List TrackedObject) (whenTs : ℚ)
    (ref_camera_frame_rate : Option ℚ) (use_tracker : Bool)
    (st : TrackingState) (category : String) : TrackingState :=
  match lookupKey st.trackers category with
  | none => st
  | some tracker =>
      -- _updateRefCameraFrameRate
      let tracker :=
        match ref_camera_frame_rate with
        | some r =>
            if tracker.ref_camera_frame_rate ≠ some r then
              { tracker with ref_camera_frame_rate := some r }
            else tracker
        | none => tracker
      let new_objects := objects.filter (fun obj => obj.category = category)
      if use_tracker = false then
        -- objects get fresh uuids and become the snapshot; no threading
        let stamped := (new_objects.enum).map
          (fun p => { p.2 with oid := some (st.next_oid + p.1) })
        { st with
            trackers := dictSet st.trackers category
              { tracker with curObjects := stamped }
            next_oid := st.next_oid + new_objects.length }
      else
        if tracker.queue ≠ [] then
          -- tracker busy: drop the new work, count it, keep the queue
          { st with
              trackers := dictSet st.trackers category tracker
              metrics := st.metrics.inc_dropped category "tracker_busy" }
        else
          { st with
              trackers := dictSet st.trackers category
                { tracker with queue := tracker.queue ++
                    [⟨new_objects, whenTs, already_tracked_objects, STREAMING_MODE⟩] } }

/-- `Tracking.trackObjects` (tracking.py lines 46-78). -/
def trackObjects (st : TrackingState) (objects : List TrackedObject)
    (already_tracked_objects : List TrackedObject) (whenTs : ℚ)
    (categories : List String) (ref_camera_frame_rate : Option ℚ)
    (use_tracker : Bool) : TrackingState :=
  let st := createTrackers st categories
  let cats := if categories = [] then dictKeys st.trackers else categories
  cats.foldl
    (trackObjectsStep objects already_tracked_objects whenTs ref_camera_frame_rate
      use_tracker)
    st


/-! ## Claim C7: busy-worker backpressure -/

lemma lookupKey_dictSet_self {K V : Type} [DecidableEq K]
    {l : List (K × V)} {k : K} {v : V} :
    lookupKey (dictSet l k v) k = some v := by
  induction l with
  | nil => simp [dictSet, lookupKey]
  | cons kv t ih =>
      by_cases h : kv.1 = k
      · simp [dictSet, lookupKey, h]
      · simp [dictSet, lookupKey, h, ih]

lemma lookupKey_dictSet_ne {K V : Type} [DecidableEq K]
    {l : List (K × V)} {k k' : K} {v : V} (h : k' ≠ k) :
    lookupKey (dictSet l k v) k' = lookupKey l k' := by
  have hk : ¬ (k = k') := fun he => h he.symm
  induction l with
  | nil =>
      simp only [dictSet, lookupKey]
      rw [if_neg hk]
  | cons kv t ih =>
      simp only [dictSet]
      by_cases h1 : kv.1 = k
      · rw [if_pos h1]
        have hkv : ¬ (kv.1 = k') := by rw [h1]; exact hk
        simp only [lookupKey]
        rw [if_neg hk, if_neg hkv]
      · rw [if_neg h1]
        simp only [lookupKey]
        by_cases h2 : kv.1 = k'
        · rw [if_pos h2, if_pos h2]
        · rw [if_neg h2, if_neg h2, ih]

/-- The state seen by one busy category through the dispatch loop: its
tracker still holds queue `q`, its `tracker_busy` drop counter reads `v`,
and metrics stay enabled. -/
def busyInv (category : String) (q : List WorkItem) (v : ℕ) (st : TrackingState) : Prop :=
  (∃ t, lookupKey st.trackers category = some t ∧ t.queue = q) ∧
  (lookupKey st.metrics.dropped (category, "tracker_busy")).getD 0 = v ∧
  st.metrics.enabled = true

lemma inc_dropped_other (ms : MetricsState) (c c0 r0 : String) (h : c ≠ c0) :
    lookupKey (ms.inc_dropped c "tracker_busy").dropped (c0, r0)
      = lookupKey ms.dropped (c0, r0) := by
  unfold MetricsState.inc_dropped
  split
  · exact lookupKey_dictSet_ne (by simp [h]; intro he; exact absurd he.symm h)
  · rfl

lemma inc_dropped_enabled (ms : MetricsState) (c r : String) :
    (ms.inc_dropped c r).enabled = ms.enabled := by
  unfold MetricsState.inc_dropped
  split <;> rfl

lemma trackObjectsStep_ne_preserves (objects already : List TrackedObject)
    (whenTs : ℚ) (r : Option ℚ) (use_tracker : Bool)
    (category cat' : String) (q : List WorkItem) (v : ℕ) (st : TrackingState)
    (hne : cat' ≠ category) (hinv : busyInv category q v st) :
    busyInv category q v
      (trackObjectsStep objects already whenTs r use_tracker st cat') := by
  obtain ⟨⟨t, hlook, hq⟩, hcount, hen⟩ := hinv
  unfold trackObjectsStep
  cases hl : lookupKey st.trackers cat' with
  | none => exact ⟨⟨t, hlook, hq⟩, hcount, hen⟩
  | some tr =>
      have hnecat : category ≠ cat' := fun he => hne he.symm
      refine ⟨?_, ?_, ?_⟩ <;> dsimp only
      · refine ⟨t, ?_, hq⟩
        split
        · rw [lookupKey_dictSet_ne hnecat]
          exact hlook
        · split
          · rw [lookupKey_dictSet_ne hnecat]
            exact hlook
          · rw [lookupKey_dictSet_ne hnecat]
            exact hlook
      · split
        · exact hcount
        · split
          · rw [inc_dropped_other st.metrics cat' category "tracker_busy" hne]
            exact hcount
          · exact hcount
      · split
        · exact hen
        · split
          · rw [inc_dropped_enabled]
            exact hen
          · exact hen

lemma trackObjectsStep_busy (objects already : List TrackedObject)
    (whenTs : ℚ) (r : Option ℚ) (category : String) (q : List WorkItem)
    (v : ℕ) (st : TrackingState)
    (hq : q ≠ []) (hinv : busyInv category q v st) :
    busyInv category q (v + 1)
      (trackObjectsStep objects already whenTs r true st category) := by
  obtain ⟨⟨t, hlook, htq⟩, hcount, hen⟩ := hinv
  unfold trackObjectsStep
  rw [hlook]
  dsimp only
  have hbusy : (match r with
      | some rr =>
          if t.ref_camera_frame_rate ≠ some rr then
            { t with ref_camera_frame_rate := some rr }
          else t
      | none => t).queue = q := by
    cases r with
    | none => exact htq
    | some rr =>
        dsimp only
        by_cases hc : t.ref_camera_frame_rate ≠ some rr
        · rw [if_pos hc]
          exact htq
        · rw [if_neg hc]
          exact htq
  rw [if_neg (by simp)]
  rw [if_pos (by rw [hbusy]; exact hq)]
  refine ⟨?_, ?_, ?_⟩
  · refine ⟨_, lookupKey_dictSet_self, hbusy⟩
  · show (lookupKey (st.metrics.inc_dropped category "tracker_busy").dropped
      (category, "tracker_busy")).getD 0 = v + 1
    unfold MetricsState.inc_dropped
    rw [if_pos hen]
    dsimp only
    rw [lookupKey_dictSet_self]
    simp only [Option.getD_some]
    omega
  · show (st.metrics.inc_dropped category "tracker_busy").enabled = true
    rw [inc_dropped_enabled]
    exact hen

lemma foldl_trackObjectsStep_no_category (objects already : List TrackedObject)
    (whenTs : ℚ) (r : Option ℚ) (use_tracker : Bool) (category : String)
    (q : List WorkItem) (v : ℕ) (cats : List String) :
    ∀ st : TrackingState, category ∉ cats → busyInv category q v st →
      busyInv category q v
        (cats.foldl (trackObjectsStep objects already whenTs r use_tracker) st) := by
  induction cats with
  | nil => intro st _ h; exact h
  | cons c cats ih =>
      intro st hnot hinv
      rw [List.foldl_cons]
      exact ih _ (fun h => hnot (List.mem_cons_of_mem _ h))
        (trackObjectsStep_ne_preserves objects already whenTs r use_tracker category c
          q v st (fun he => hnot (he ▸ List.mem_cons_self _ _)) hinv)

lemma foldl_trackObjectsStep_once (objects already : List TrackedObject)
    (whenTs : ℚ) (r : Option ℚ) (category : String)
    (q : List WorkItem) (hq : q ≠ []) (v : ℕ) (cats : List String) :
    ∀ st : TrackingState, cats.count category = 1 → busyInv category q v st →
      busyInv category q (v + 1)
        (cats.foldl (trackObjectsStep objects already whenTs r true) st) := by
  induction cats with
  | nil => intro st hcount; simp at hcount
  | cons c cats ih =>
      intro st hcount hinv
      rw [List.foldl_cons]
      by_cases hc : c = category
      · subst hc
        have hcnt : cats.count c + 1 = 1 := by
          simpa [List.count_cons] using hcount
        have hzero : cats.count c = 0 := by omega
        have hnot : c ∉ cats := List.count_eq_zero.mp hzero
        exact foldl_trackObjectsStep_no_category objects already whenTs r true c q
          (v + 1) cats _ hnot
          (trackObjectsStep_busy objects already whenTs r c q v st hq hinv)
      · have hc' : ¬ category = c := fun he => hc he.symm
        have hcount' : cats.count category = 1 := by
          simpa [List.count_cons, hc, hc'] using hcount
        exact ih _ hcount'
          (trackObjectsStep_ne_preserves objects already whenTs r true category c
            q v st hc hinv)

lemma createTrackers_preserves (categories : List String) (category : String)
    (q : List WorkItem) (v : ℕ) :
    ∀ st : TrackingState, busyInv category q v st →
      busyInv category q v (createTrackers st categories) := by
  induction categories with
  | nil => intro st h; exact h
  | cons c cats ih =>
      intro st hinv
      obtain ⟨⟨t, hlook, hq⟩, hcount, hen⟩ := hinv
      unfold createTrackers
      rw [List.foldl_cons]
      apply ih
      cases hl : lookupKey st.trackers c with
      | some tr => exact ⟨⟨t, hlook, hq⟩, hcount, hen⟩
      | none =>
          refine ⟨⟨t, ?_, hq⟩, hcount, hen⟩
          have hne : category ≠ c := by
            intro he
            rw [he, hl] at hlook
            exact Option.noConfusion hlook
          rw [lookupKey_dictSet_ne hne]
          exact hlook

/-- Claim C7: when the worker for a category is busy (its queue is
non-empty) as new work arrives via `trackObjects` with the tracker enabled,
the new work is not enqueued (that category's queue is unchanged, so the
previously queued detection is still pending for the worker), and the
dropped-messages counter with attributes
`{category, reason = "tracker_busy"}` is incremented by exactly one.  The
embedded dispatcher is a total function: the drop path raises no
exception. -/
theorem busy_worker_drops_and_counts (st : TrackingState)
    (objects already : List TrackedObject) (whenTs : ℚ)
    (categories : List String) (r : Option ℚ) (category : String)
    (tracker : CategoryTracker)
    (hcat : lookupKey st.trackers category = some tracker)
    (hbusy : tracker.queue ≠ [])
    (hen : st.metrics.enabled = true)
    (hcount : categories.count category = 1) :
    (∃ t, lookupKey (trackObjects st objects already whenTs categories r
        true).trackers category = some t ∧ t.queue = tracker.queue) ∧
    (lookupKey (trackObjects st objects already whenTs categories r
        true).metrics.dropped (category, "tracker_busy")).getD 0
      = (lookupKey st.metrics.dropped (category, "tracker_busy")).getD 0 + 1 := by
  have hinv0 : busyInv category tracker.queue
      ((lookupKey st.metrics.dropped (category, "tracker_busy")).getD 0) st :=
    ⟨⟨tracker, hcat, rfl⟩, rfl, hen⟩
  have hinv1 := createTrackers_preserves categories category tracker.queue _ st hinv0
  have hne : ¬ categories = [] := by
    intro he
    rw [he] at hcount
    simp at hcount
  have hfold := foldl_trackObjectsStep_once objects already whenTs r category
    tracker.queue hbusy _ categories (createTrackers st categories) hcount hinv1
  unfold trackObjects
  dsimp only
  rw [if_neg hne]
  obtain ⟨⟨t, hlook, hq⟩, hcount2, -⟩ := hfold
  exact ⟨⟨t, hlook, hq⟩, hcount2⟩

/-- A dispatcher state with one busy `person` worker. -/
def busySampleState : TrackingState :=
  ⟨[("person", ⟨[⟨[], 1, [], STREAMING_MODE⟩], [], none⟩)], ⟨true, []⟩, 0⟩

/-- Claim C7 (witness): the backpressure theorem applied to a concrete state
whose `person` worker already holds one queued item. -/
theorem busy_worker_witness :
    (∃ t, lookupKey (trackObjects busySampleState [] [] 2 ["person"] none
        true).trackers "person" = some t ∧
        t.queue = [⟨[], 1, [], STREAMING_MODE⟩]) ∧
    (lookupKey (trackObjects busySampleState [] [] 2 ["person"] none
        true).metrics.dropped ("person", "tracker_busy")).getD 0
      = (lookupKey busySampleState.metrics.dropped ("person", "tracker_busy")).getD 0 + 1 :=
  busy_worker_drops_and_counts busySampleState [] [] 2 ["person"] none "person"
    ⟨[⟨[], 1, [], STREAMING_MODE⟩], [], none⟩ (by decide) (by decide) (by decide) (by decide)


/-! ## HungarianMatcher (cluster_analytics_tracker.py, lines 479-570)

Costs are real numbers; `float('inf')` (returned on a category mismatch) is
modelled by `none`.  `scipy.optimize.linear_sum_assignment` is modelled as
exhaustive minimisation over all maximal partial assignments of the
rectangular cost matrix; its `ValueError` on an infeasible matrix (no full
assignment avoids an infinite entry) is modelled by `none`.  The tie-break
among equal-cost assignments is unspecified in scipy and chosen by `argmin`
here; no claim depends on it. -/

def MAX_MATCHING_DISTANCE : ℝ := 5.0
def POSITION_WEIGHT : ℝ := 0.4
def VELOCITY_WEIGHT : ℝ := 0.3
def SIZE_WEIGHT : ℝ := 0.2
def SHAPE_WEIGHT : ℝ := 0.1

/-- `np.linalg.norm` of the difference of two 2-D points. -/
noncomputable def euclid (p q : ℚ × ℚ) : ℝ :=
  Real.sqrt (((p.1 - q.1 : ℚ) : ℝ) ^ 2 + ((p.2 - q.2 : ℚ) : ℝ) ^ 2)

def dummyDetection : Detection :=
  ⟨"", 0, ⟨0, 0⟩, ⟨""⟩, ⟨0, 0⟩, [], ⟨0, 0⟩⟩

def dummyCluster : TrackedCluster :=
  mkTrackedCluster 0 "" "" ⟨0, 0⟩ ⟨""⟩ ⟨0, 0⟩ [] ⟨0, 0⟩ 0

/-- `HungarianMatcher._calculateMatchingCost` (lines 535-570). -/
noncomputable def calculateMatchingCost (tracked : TrackedCluster)
    (detection : Detection) : Option ℝ :=
  if tracked.category ≠ detection.category then none
  else
    let predicted_pos := tracked.predicted_position.getD
      (tracked.centroid.x, tracked.centroid.y)
    let detection_pos := (detection.center_of_mass.x, detection.center_of_mass.y)
    let position_cost := euclid predicted_pos detection_pos * POSITION_WEIGHT
    let tracked_vel := (tracked.velocity_analysis.vx, tracked.velocity_analysis.vy)
    let detection_vel := (detection.velocity_analysis.vx, detection.velocity_analysis.vy)
    let velocity_cost := euclid tracked_vel detection_vel * VELOCITY_WEIGHT
    let size_cost :=
      ((((tracked.object_count : ℤ) - (detection.objects_count : ℤ)).natAbs : ℕ) : ℝ)
        * SIZE_WEIGHT
    let shape_cost :=
      (if tracked.shape_analysis.shape = detection.shape_analysis.shape
        then (1 : ℝ) else 2) * SHAPE_WEIGHT
    some (position_cost + velocity_cost + size_cost + shape_cost)

/-- All ways to insert an element into a list (structural, unlike the
library `List.permutations`, so that concrete instances reduce). -/
def insertEverywhere {α : Type} (a : α) : List α → List (List α)
  | [] => [[a]]
  | b :: t => (a :: b :: t) :: (insertEverywhere a t).map (fun l => b :: l)

/-- All permutations of a list, structurally. -/
def perms {α : Type} : List α → List (List α)
  | [] => [[]]
  | a :: t => (perms t).flatMap (insertEverywhere a)

/-- The maximal partial assignments of an `n × m` matrix: `min n m` pairs
with pairwise-distinct rows and pairwise-distinct columns. -/
def assignmentCandidates (n m : ℕ) : List (List (ℕ × ℕ)) :=
  if n ≤ m then
    (perms (List.range m)).map (fun p => (List.range n).zip (p.take n))
  else
    (perms (List.range n)).map (fun p => (p.take m).zip (List.range m))

/-- Total cost of an assignment; `none` as soon as an infinite entry is
selected. -/
def totalCost (cost : ℕ → ℕ → Option ℝ) (a : List (ℕ × ℕ)) : Option ℝ :=
  a.foldl
    (fun acc p =>
      match acc, cost p.1 p.2 with
      | some x, some y => some (x + y)
      | _, _ => none)
    (some 0)

/-- `scipy.optimize.linear_sum_assignment`: a finite-total-cost assignment of
minimal total cost, `none` (the `ValueError`) if every maximal assignment
meets an infinite entry. -/
noncomputable def linearSumAssignment (n m : ℕ) (cost : ℕ → ℕ → Option ℝ) :
    Option (List (ℕ × ℕ)) :=
  ((assignmentCandidates n m).filter (fun a => (totalCost cost a).isSome)).argmin
    (fun a => (totalCost cost a).getD 0)

/-- `HungarianMatcher.match` (lines 497-521): build the cost matrix, solve
the assignment, and keep matches below the distance threshold, with
`similarity = 1 − cost/max_distance`. -/
noncomputable def hungarianMatch (max_distance : ℝ)
    (existing_clusters : List TrackedCluster) (new_detections : List Detection) :
    Option (List (ℕ × ℕ × ℝ)) :=
  match existing_clusters, new_detections with
  | [], _ => some []
  | _, [] => some []
  | _, _ =>
      (linearSumAssignment existing_clusters.length new_detections.length
        (fun i j => calculateMatchingCost (existing_clusters.getD i dummyCluster)
          (new_detections.getD j dummyDetection))).map
        (fun assignment => assignment.filterMap (fun p =>
          match calculateMatchingCost (existing_clusters.getD p.1 dummyCluster)
            (new_detections.getD p.2 dummyDetection) with
          | none => none
          | some c =>
              if h : c < max_distance then
                some ((existing_clusters.getD p.1 dummyCluster).uuid, p.2,
                  1 - c / max_distance)
              else none))


/-! ## Structure of the assignments returned by the matcher -/

lemma mem_insertEverywhere_perm {α : Type} {a : α} {l p : List α}
    (h : p ∈ insertEverywhere a l) : List.Perm p (a :: l) := by
  induction l generalizing p with
  | nil =>
      simp [insertEverywhere] at h
      subst h
      exact List.Perm.refl _
  | cons b t ih =>
      simp only [insertEverywhere, List.mem_cons, List.mem_map] at h
      rcases h with h | ⟨q, hq, he⟩
      · subst h
        exact List.Perm.refl _
      · subst he
        have h1 : List.Perm (b :: q) (b :: (a :: t)) := List.Perm.cons b (ih hq)
        exact h1.trans (List.Perm.swap a b t)

lemma mem_perms_perm {α : Type} {l p : List α} (h : p ∈ perms l) :
    List.Perm p l := by
  induction l generalizing p with
  | nil =>
      simp [perms] at h
      subst h
      exact List.Perm.refl _
  | cons a t ih =>
      simp only [perms, List.mem_flatMap] at h
      obtain ⟨q, hq, hins⟩ := h
      exact (mem_insertEverywhere_perm hins).trans (List.Perm.cons a (ih hq))

lemma assignmentCandidates_spec {n m : ℕ} {a : List (ℕ × ℕ)}
    (h : a ∈ assignmentCandidates n m) :
    (a.map (fun p => p.1)).Nodup ∧ (a.map (fun p => p.2)).Nodup ∧
    a.length = min n m ∧ ∀ p ∈ a, p.1 < n ∧ p.2 < m := by
  unfold assignmentCandidates at h
  by_cases hnm : n ≤ m
  · rw [if_pos hnm] at h
    obtain ⟨p, hp, he⟩ := List.mem_map.mp h
    have hperm := mem_perms_perm hp
    have hplen : p.length = m := hperm.length_eq.trans (List.length_range m)
    have hpnd : p.Nodup := hperm.nodup_iff.mpr (List.nodup_range m)
    have htake_len : (p.take n).length = n := by
      rw [List.length_take, hplen]
      omega
    subst he
    refine ⟨?_, ?_, ?_, ?_⟩
    · rw [List.map_fst_zip _ _ (by rw [List.length_range, htake_len])]
      exact List.nodup_range n
    · rw [List.map_snd_zip _ _ (by rw [List.length_range, htake_len])]
      exact List.Nodup.sublist (List.take_sublist _ _) hpnd
    · rw [List.length_zip, List.length_range, htake_len]
      omega
    · intro q hq
      obtain ⟨h1, h2⟩ := List.of_mem_zip hq
      constructor
      · exact List.mem_range.mp h1
      · have : q.2 ∈ p := List.mem_of_mem_take h2
        exact List.mem_range.mp (hperm.mem_iff.mp this)
  · rw [if_neg hnm] at h
    obtain ⟨p, hp, he⟩ := List.mem_map.mp h
    have hperm := mem_perms_perm hp
    have hplen : p.length = n := hperm.length_eq.trans (List.length_range n)
    have hpnd : p.Nodup := hperm.nodup_iff.mpr (List.nodup_range n)
    have htake_len : (p.take m).length = m := by
      rw [List.length_take, hplen]
      omega
    subst he
    refine ⟨?_, ?_, ?_, ?_⟩
    · rw [List.map_fst_zip _ _ (by rw [List.length_range, htake_len])]
      exact List.Nodup.sublist (List.take_sublist _ _) hpnd
    · rw [List.map_snd_zip _ _ (by rw [List.length_range, htake_len])]
      exact List.nodup_range m
    · rw [List.length_zip, List.length_range, htake_len]
      omega
    · intro q hq
      obtain ⟨h1, h2⟩ := List.of_mem_zip hq
      constructor
      · have : q.1 ∈ p := List.mem_of_mem_take h1
        exact List.mem_range.mp (hperm.mem_iff.mp this)
      · exact List.mem_range.mp h2

lemma linearSumAssignment_mem {n m : ℕ} {cost : ℕ → ℕ → Option ℝ}
    {a : List (ℕ × ℕ)} (h : linearSumAssignment n m cost = some a) :
    a ∈ assignmentCandidates n m := by
  unfold linearSumAssignment at h
  have := List.argmin_mem h
  exact List.mem_of_mem_filter this

/-- If a function tags filterMap outputs with a key that matches a nodup
key column of the inputs, the outputs keep distinct keys. -/
lemma nodup_map_filterMap {α β γ : Type} (l : List α) (f : α → Option β)
    (g : α → γ) (h : β → γ)
    (hcomp : ∀ x y, f x = some y → h y = g x)
    (hnd : (l.map g).Nodup) : ((l.filterMap f).map h).Nodup := by
  induction l with
  | nil => simp
  | cons a t ih =>
      rw [List.map_cons, List.nodup_cons] at hnd
      cases hfa : f a with
      | none =>
          rw [List.filterMap_cons_none hfa]
          exact ih hnd.2
      | some b =>
          rw [List.filterMap_cons_some hfa, List.map_cons, List.nodup_cons]
          refine ⟨?_, ih hnd.2⟩
          intro hmem
          obtain ⟨y, hy, hye⟩ := List.mem_map.mp hmem
          obtain ⟨x, hx, hfx⟩ := List.mem_filterMap.mp hy
          apply hnd.1
          rw [← hcomp a b hfa, ← hye, hcomp x y hfx]
          exact List.mem_map_of_mem g hx


/-! ## Claim C10: the matcher returns a partial matching -/

lemma matchEntry_eq {clusters : List TrackedCluster} {dets : List Detection}
    {max_distance : ℝ} {p : ℕ × ℕ} {y : ℕ × ℕ × ℝ}
    (h : (match calculateMatchingCost (clusters.getD p.1 dummyCluster)
        (dets.getD p.2 dummyDetection) with
      | none => none
      | some c =>
          if h : c < max_distance then
            some ((clusters.getD p.1 dummyCluster).uuid, p.2, 1 - c / max_distance)
          else none) = some y) :
    ∃ c, calculateMatchingCost (clusters.getD p.1 dummyCluster)
        (dets.getD p.2 dummyDetection) = some c ∧ c < max_distance ∧
      y = ((clusters.getD p.1 dummyCluster).uuid, p.2, 1 - c / max_distance) := by
  cases hc : calculateMatchingCost (clusters.getD p.1 dummyCluster)
      (dets.getD p.2 dummyDetection) with
  | none => rw [hc] at h; exact Option.noConfusion h
  | some c =>
      rw [hc] at h
      dsimp only at h
      by_cases hlt : c < max_distance
      · rw [dif_pos hlt] at h
        exact ⟨c, rfl, hlt, (Option.some.inj h).symm⟩
      · rw [dif_neg hlt] at h
        exact Option.noConfusion h

/-- Claim C10: for every list of existing clusters with pairwise-distinct
uuids and every list of detections (of any lengths), a successful result of
`HungarianMatcher.match` is a partial matching: each cluster uuid appears in
at most one triple, each detection index appears in at most one triple, and
the number of matches is at most the minimum of the two list lengths. -/
theorem hungarian_match_is_partial_matching (clusters : List TrackedCluster)
    (dets : List Detection) (r : List (ℕ × ℕ × ℝ))
    (hnodup : (clusters.map (fun c => c.uuid)).Nodup)
    (hr : hungarianMatch MAX_MATCHING_DISTANCE clusters dets = some r) :
    (r.map (fun t => t.1)).Nodup ∧ (r.map (fun t => t.2.1)).Nodup ∧
    r.length ≤ min clusters.length dets.length := by
  cases clusters with
  | nil =>
      cases dets with
      | nil =>
          have h0 : hungarianMatch MAX_MATCHING_DISTANCE
              ([] : List TrackedCluster) ([] : List Detection) = some [] := rfl
          rw [h0] at hr
          have : r = [] := (Option.some.inj hr).symm
          subst this
          simp
      | cons d0 ds =>
          have h0 : hungarianMatch MAX_MATCHING_DISTANCE
              ([] : List TrackedCluster) (d0 :: ds) = some [] := rfl
          rw [h0] at hr
          have : r = [] := (Option.some.inj hr).symm
          subst this
          simp
  | cons c0 cs =>
  cases dets with
  | nil =>
      have h0 : hungarianMatch MAX_MATCHING_DISTANCE
          (c0 :: cs) ([] : List Detection) = some [] := rfl
      rw [h0] at hr
      have : r = [] := (Option.some.inj hr).symm
      subst this
      simp
  | cons d0 ds =>
      unfold hungarianMatch at hr
      dsimp only at hr
      obtain ⟨a, ha, hra⟩ := Option.map_eq_some'.mp hr
      have hcand := linearSumAssignment_mem ha
      obtain ⟨hrows, hcols, hlen, hbound⟩ := assignmentCandidates_spec hcand
      subst hra
      refine ⟨?_, ?_, ?_⟩
      · -- cluster uuids pairwise distinct
        apply nodup_map_filterMap _ _
          (fun p => ((c0 :: cs).getD p.1 dummyCluster).uuid) _
          (fun p y hy => by
            obtain ⟨c, -, -, hye⟩ := matchEntry_eq hy
            rw [hye])
        -- the key column is nodup
        have hmm : List.map (fun p => ((c0 :: cs).getD p.1 dummyCluster).uuid) a
            = List.map (fun i => ((c0 :: cs).getD i dummyCluster).uuid)
              (List.map (fun p : ℕ × ℕ => p.1) a) := by
          rw [List.map_map]
          rfl
        rw [hmm]
        apply List.Nodup.map_on ?_ hrows
        intro i hi j hj he
        have hilt : i < (c0 :: cs).length := by
          obtain ⟨pi, hpi, hpie⟩ := List.mem_map.mp hi
          rw [← hpie]
          exact (hbound pi hpi).1
        have hjlt : j < (c0 :: cs).length := by
          obtain ⟨pj, hpj, hpje⟩ := List.mem_map.mp hj
          rw [← hpje]
          exact (hbound pj hpj).1
        rw [List.getD_eq_getElem _ _ hilt, List.getD_eq_getElem _ _ hjlt] at he
        have hilt' : i < ((c0 :: cs).map (fun c => c.uuid)).length := by
          rw [List.length_map]
          exact hilt
        have hjlt' : j < ((c0 :: cs).map (fun c => c.uuid)).length := by
          rw [List.length_map]
          exact hjlt
        have he' : ((c0 :: cs).map (fun c => c.uuid))[i] =
            ((c0 :: cs).map (fun c => c.uuid))[j] := by
          rw [List.getElem_map, List.getElem_map]
          exact he
        exact (List.Nodup.getElem_inj_iff hnodup).mp he'
      · -- detection indices pairwise distinct
        apply nodup_map_filterMap _ _ (fun p : ℕ × ℕ => p.2) _
          (fun p y hy => by
            obtain ⟨c, -, -, hye⟩ := matchEntry_eq hy
            rw [hye])
        exact hcols
      · -- at most min of the two lengths
        calc (List.filterMap _ a).length ≤ a.length := List.length_filterMap_le _ _
        _ = min (c0 :: cs).length (d0 :: ds).length := hlen


/-! ## Concrete evaluation of the matcher on the sample data -/

lemma euclid_nonneg (p q : ℚ × ℚ) : 0 ≤ euclid p q :=
  Real.sqrt_nonneg _

lemma euclid_zero : euclid ((0 : ℚ), (0 : ℚ)) ((0 : ℚ), (0 : ℚ)) = 0 := by
  unfold euclid
  norm_num

lemma costSampleEval :
    calculateMatchingCost sampleCluster sampleDetection = some (0.1 : ℝ) := by
  have hcat : ¬ sampleCluster.category ≠ sampleDetection.category := by decide
  have h1 : sampleCluster.predicted_position.getD
      (sampleCluster.centroid.x, sampleCluster.centroid.y) = ((0 : ℚ), (0 : ℚ)) := by
    decide
  have h2 : (sampleDetection.center_of_mass.x, sampleDetection.center_of_mass.y)
      = ((0 : ℚ), (0 : ℚ)) := by decide
  have h3 : (sampleCluster.velocity_analysis.vx, sampleCluster.velocity_analysis.vy)
      = ((0 : ℚ), (0 : ℚ)) := by decide
  have h4 : (sampleDetection.velocity_analysis.vx, sampleDetection.velocity_analysis.vy)
      = ((0 : ℚ), (0 : ℚ)) := by decide
  have h5 : ((sampleCluster.object_count : ℤ)
      - (sampleDetection.objects_count : ℤ)).natAbs = 0 := by decide
  have h6 : sampleCluster.shape_analysis.shape = sampleDetection.shape_analysis.shape := by
    decide
  unfold calculateMatchingCost
  rw [if_neg hcat]
  dsimp only
  rw [h1, h2, h3, h4, h5, if_pos h6, euclid_zero]
  norm_num [POSITION_WEIGHT, VELOCITY_WEIGHT, SIZE_WEIGHT, SHAPE_WEIGHT]

/-- The cost matrix the matcher builds for `[sampleCluster]` and
`[sampleDetection]`. -/
noncomputable def mCost : ℕ → ℕ → Option ℝ := fun i j =>
  calculateMatchingCost ([sampleCluster].getD i dummyCluster)
    ([sampleDetection].getD j dummyDetection)

lemma mCost_zero : mCost 0 0 = some (0.1 : ℝ) := by
  show calculateMatchingCost sampleCluster sampleDetection = some (0.1 : ℝ)
  exact costSampleEval

lemma totalCostSample : totalCost mCost [((0 : ℕ), (0 : ℕ))] = some (0 + 0.1 : ℝ) := by
  unfold totalCost
  rw [List.foldl_cons, List.foldl_nil]
  dsimp only
  rw [mCost_zero]

lemma lsaSampleEval : linearSumAssignment 1 1 mCost = some [((0 : ℕ), (0 : ℕ))] := by
  unfold linearSumAssignment
  have hcand : assignmentCandidates 1 1 = [[((0 : ℕ), (0 : ℕ))]] := by decide
  rw [hcand]
  have hfilter : List.filter (fun a => (totalCost mCost a).isSome) [[((0 : ℕ), (0 : ℕ))]]
      = [[((0 : ℕ), (0 : ℕ))]] := by
    simp only [List.filter_cons, List.filter_nil]
    rw [show (totalCost mCost [((0 : ℕ), (0 : ℕ))]).isSome = true by
      rw [totalCostSample]; rfl]
    simp
  rw [hfilter]
  exact List.argmin_singleton

/-- The post-processing the matcher applies to the optimal assignment for
`[sampleCluster]` and `[sampleDetection]`. -/
noncomputable def mPost : List (ℕ × ℕ) → List (ℕ × ℕ × ℝ) := fun assignment =>
  assignment.filterMap (fun p =>
    match calculateMatchingCost ([sampleCluster].getD p.1 dummyCluster)
      ([sampleDetection].getD p.2 dummyDetection) with
    | none => none
    | some c =>
        if h : c < MAX_MATCHING_DISTANCE then
          some (([sampleCluster].getD p.1 dummyCluster).uuid, p.2,
            1 - c / MAX_MATCHING_DISTANCE)
        else none)

lemma mPostSample :
    mPost [((0 : ℕ), (0 : ℕ))]
      = [((0 : ℕ), (0 : ℕ), 1 - (0.1 : ℝ) / MAX_MATCHING_DISTANCE)] := by
  have hlt : (0.1 : ℝ) < MAX_MATCHING_DISTANCE := by
    unfold MAX_MATCHING_DISTANCE
    norm_num
  have hmc : calculateMatchingCost ([sampleCluster].getD 0 dummyCluster)
      ([sampleDetection].getD 0 dummyDetection) = some (0.1 : ℝ) := by
    show calculateMatchingCost sampleCluster sampleDetection = some (0.1 : ℝ)
    exact costSampleEval
  unfold mPost
  rw [List.filterMap_cons]
  dsimp only
  rw [hmc]
  dsimp only
  rw [dif_pos hlt, List.filterMap_nil]
  dsimp only
  rw [show ([sampleCluster].getD 0 dummyCluster).uuid = 0 from by decide]

/-- `HungarianMatcher.match` on one cluster and one matching detection:
the pair is matched with cost 0.1, hence similarity `1 − 0.1/5`. -/
lemma matchSampleEval :
    hungarianMatch MAX_MATCHING_DISTANCE [sampleCluster] [sampleDetection]
      = some [((0 : ℕ), (0 : ℕ), 1 - (0.1 : ℝ) / MAX_MATCHING_DISTANCE)] := by
  show (linearSumAssignment 1 1 mCost).map mPost
      = some [((0 : ℕ), (0 : ℕ), 1 - (0.1 : ℝ) / MAX_MATCHING_DISTANCE)]
  rw [lsaSampleEval, Option.map_some', mPostSample]

/-- Claim C10 (witness): the partial-matching theorem applied to one sample
cluster and one sample detection, whose match succeeds with the single pair
`(0, 0)`. -/
theorem hungarian_match_is_partial_matching_witness :
    ([sampleCluster].map (fun c => c.uuid)).Nodup ∧
    (([((0 : ℕ), (0 : ℕ), 1 - (0.1 : ℝ) / MAX_MATCHING_DISTANCE)].map
        (fun t => t.1)).Nodup ∧
      ([((0 : ℕ), (0 : ℕ), 1 - (0.1 : ℝ) / MAX_MATCHING_DISTANCE)].map
        (fun t => t.2.1)).Nodup ∧
      ([((0 : ℕ), (0 : ℕ), 1 - (0.1 : ℝ) / MAX_MATCHING_DISTANCE)]
          : List (ℕ × ℕ × ℝ)).length
        ≤ min [sampleCluster].length [sampleDetection].length) :=
  ⟨by decide,
    hungarian_match_is_partial_matching [sampleCluster] [sampleDetection] _
      (by decide) matchSampleEval⟩


/-! ## Claim C5: matching cost, distance threshold and similarity -/

lemma calculateMatchingCost_nonneg (t : TrackedCluster) (d : Detection) (c : ℝ)
    (h : calculateMatchingCost t d = some c) : 0 ≤ c := by
  unfold calculateMatchingCost at h
  by_cases hcat : t.category ≠ d.category
  · rw [if_pos hcat] at h
    exact Option.noConfusion h
  · rw [if_neg hcat] at h
    dsimp only at h
    have hc : c = _ := (Option.some.inj h).symm
    rw [hc]
    refine add_nonneg (add_nonneg (add_nonneg ?_ ?_) ?_) ?_
    · exact mul_nonneg (euclid_nonneg _ _) (by norm_num [POSITION_WEIGHT])
    · exact mul_nonneg (euclid_nonneg _ _) (by norm_num [VELOCITY_WEIGHT])
    · exact mul_nonneg (Nat.cast_nonneg _) (by norm_num [SIZE_WEIGHT])
    · refine mul_nonneg ?_ (by norm_num [SHAPE_WEIGHT])
      split
      · norm_num
      · norm_num

/-- Claim C5: the matcher's pairing cost is +∞ (modelled `none`) when the
categories differ, and otherwise position distance × 0.4 + velocity
distance × 0.3 + |member-count difference| × 0.2 + (1 if shapes equal
else 2) × 0.1; `MAX_MATCHING_DISTANCE` defaults to 5.0; every returned
match has cost below the threshold (so any match with larger cost is
discarded) and carries `similarity = 1 − cost/MAX_MATCHING_DISTANCE`, a
value in [0, 1]. -/
theorem matcher_cost_formula_and_similarity :
    (∀ (t : TrackedCluster) (d : Detection), t.category ≠ d.category →
      calculateMatchingCost t d = none) ∧
    (∀ (t : TrackedCluster) (d : Detection), t.category = d.category →
      calculateMatchingCost t d = some (
        euclid (t.predicted_position.getD (t.centroid.x, t.centroid.y))
            (d.center_of_mass.x, d.center_of_mass.y) * (0.4 : ℝ)
        + euclid (t.velocity_analysis.vx, t.velocity_analysis.vy)
            (d.velocity_analysis.vx, d.velocity_analysis.vy) * (0.3 : ℝ)
        + ((((t.object_count : ℤ) - (d.objects_count : ℤ)).natAbs : ℕ) : ℝ) * (0.2 : ℝ)
        + (if t.shape_analysis.shape = d.shape_analysis.shape then (1 : ℝ) else 2)
            * (0.1 : ℝ))) ∧
    MAX_MATCHING_DISTANCE = 5 ∧
    (∀ (clusters : List TrackedCluster) (dets : List Detection)
        (r : List (ℕ × ℕ × ℝ)),
      hungarianMatch MAX_MATCHING_DISTANCE clusters dets = some r →
      ∀ x ∈ r, ∃ (p : ℕ × ℕ) (c : ℝ),
        calculateMatchingCost (clusters.getD p.1 dummyCluster)
          (dets.getD p.2 dummyDetection) = some c ∧
        c < MAX_MATCHING_DISTANCE ∧
        x = ((clusters.getD p.1 dummyCluster).uuid, p.2,
          1 - c / MAX_MATCHING_DISTANCE) ∧
        0 ≤ 1 - c / MAX_MATCHING_DISTANCE ∧
        1 - c / MAX_MATCHING_DISTANCE ≤ 1) := by
  refine ⟨?_, ?_, ?_, ?_⟩
  · intro t d h
    unfold calculateMatchingCost
    rw [if_pos h]
  · intro t d h
    unfold calculateMatchingCost
    rw [if_neg (not_not_intro h)]
    dsimp only
    rw [show POSITION_WEIGHT = (0.4 : ℝ) from rfl,
      show VELOCITY_WEIGHT = (0.3 : ℝ) from rfl,
      show SIZE_WEIGHT = (0.2 : ℝ) from rfl,
      show SHAPE_WEIGHT = (0.1 : ℝ) from rfl]
  · unfold MAX_MATCHING_DISTANCE
    norm_num
  · intro clusters dets r hr x hx
    have h5 : (0 : ℝ) < MAX_MATCHING_DISTANCE := by
      unfold MAX_MATCHING_DISTANCE
      norm_num
    cases clusters with
    | nil =>
        cases dets with
        | nil =>
            have h0 : hungarianMatch MAX_MATCHING_DISTANCE
                ([] : List TrackedCluster) ([] : List Detection) = some [] := rfl
            rw [h0] at hr
            rw [← Option.some.inj hr] at hx
            exact absurd hx (List.not_mem_nil x)
        | cons d0 ds =>
            have h0 : hungarianMatch MAX_MATCHING_DISTANCE
                ([] : List TrackedCluster) (d0 :: ds) = some [] := rfl
            rw [h0] at hr
            rw [← Option.some.inj hr] at hx
            exact absurd hx (List.not_mem_nil x)
    | cons c0 cs =>
    cases dets with
    | nil =>
        have h0 : hungarianMatch MAX_MATCHING_DISTANCE
            (c0 :: cs) ([] : List Detection) = some [] := rfl
        rw [h0] at hr
        rw [← Option.some.inj hr] at hx
        exact absurd hx (List.not_mem_nil x)
    | cons d0 ds =>
        unfold hungarianMatch at hr
        dsimp only at hr
        obtain ⟨a, ha, hra⟩ := Option.map_eq_some'.mp hr
        subst hra
        obtain ⟨p, hpa, hfp⟩ := List.mem_filterMap.mp hx
        obtain ⟨c, hcost, hlt, hxe⟩ := matchEntry_eq hfp
        have hc0 : 0 ≤ c := calculateMatchingCost_nonneg _ _ _ hcost
        refine ⟨p, c, hcost, hlt, hxe, ?_, ?_⟩
        · have : c / MAX_MATCHING_DISTANCE ≤ 1 :=
            (div_le_one h5).mpr (le_of_lt hlt)
          linarith
        · have : 0 ≤ c / MAX_MATCHING_DISTANCE := div_nonneg hc0 (le_of_lt h5)
          linarith

def carDetection : Detection := { sampleDetection with category := "car" }

/-- Claim C5 (witness): the cost of pairing the sample person cluster with a
car detection is +∞, and the sample match `(0, 0)` (cost 0.1) is kept with
similarity `1 − 0.1/5 ∈ [0, 1]`. -/
theorem matcher_cost_formula_and_similarity_witness :
    calculateMatchingCost sampleCluster carDetection = none ∧
    (∃ (p : ℕ × ℕ) (c : ℝ),
      calculateMatchingCost ([sampleCluster].getD p.1 dummyCluster)
        ([sampleDetection].getD p.2 dummyDetection) = some c ∧
      c < MAX_MATCHING_DISTANCE ∧
      ((0 : ℕ), (0 : ℕ), 1 - (0.1 : ℝ) / MAX_MATCHING_DISTANCE)
        = (([sampleCluster].getD p.1 dummyCluster).uuid, p.2,
            1 - c / MAX_MATCHING_DISTANCE) ∧
      0 ≤ 1 - c / MAX_MATCHING_DISTANCE ∧
      1 - c / MAX_MATCHING_DISTANCE ≤ 1) :=
  ⟨matcher_cost_formula_and_similarity.1 sampleCluster carDetection (by decide),
    matcher_cost_formula_and_similarity.2.2.2 [sampleCluster] [sampleDetection] _
      matchSampleEval _ (List.mem_singleton.mpr rfl)⟩


/-! ## Claim C3: the cluster coordinator pipeline
(`ClusterTracker.processNewDetections`, lines 590-612, and
`_processCategoryDetections`, lines 651-699)

Python object references into the active-cluster dict are modelled by uuid
lookups: within one pass nothing is removed from the dict, so resolving the
uuid again always finds the object the reference points to. -/

def TrackerState.withMemory (t : TrackerState) (m : ClusterMemory) : TrackerState :=
  { t with memory := m }

/-- `ClusterTracker._groupByCategory` (lines 614-620); every embedded
`Detection` carries its category, so the `'unknown'` default for a missing
key does not arise. -/
def groupByCategory (detections : List Detection) : List (String × List Detection) :=
  detections.foldl
    (fun acc d => dictSet acc d.category ((lookupKey acc d.category).getD [] ++ [d]))
    []

/-- The trackable clusters of `_processCategoryDetections` (lines 655-660):
existing clusters of the scene and category in a non-LOST state. -/
def trackableClusters (m : ClusterMemory) (category scene_id : String) :
    List TrackedCluster :=
  (m.getClustersByCategory category (some scene_id)).filter (fun c =>
    decide (c.state = ClusterState.new) || decide (c.state = ClusterState.active) ||
    decide (c.state = ClusterState.stable) || decide (c.state = ClusterState.fading))

/-- One iteration of the matched-clusters loop (lines 670-683): look the uuid
up in memory and, if found, `update` the cluster in place and record the
matched uuid and detection index. -/
def processMatchesStep (detections : List Detection) (ts : ℚ)
    (acc : TrackerState × List ℕ × List ℕ) (triple : ℕ × ℕ × ℝ) :
    TrackerState × List ℕ × List ℕ :=
  match lookupKey acc.1.memory.active_clusters triple.1 with
  | none => acc
  | some _ =>
      let d := detections.getD triple.2.1 dummyDetection
      (acc.1.withMemory (withActive acc.1.memory
        (dictModify acc.1.memory.active_clusters triple.1
          (fun c => c.update d.center_of_mass d.shape_analysis d.velocity_analysis
            d.object_ids ts))),
       acc.2.1 ++ [triple.1], acc.2.2 ++ [triple.2.1])

def processMatches (t : TrackerState) (detections : List Detection) (ts : ℚ)
    (ms : List (ℕ × ℕ × ℝ)) : TrackerState × List ℕ × List ℕ :=
  ms.foldl (processMatchesStep detections ts) (t, [], [])

/-- One iteration of the unmatched-detections loop (lines 686-693): create a
new cluster with a fresh uuid. -/
def createStep (scene_id : String) (ts : ℚ) (matched_idx : List ℕ)
    (t : TrackerState) (p : ℕ × Detection) : TrackerState :=
  if p.1 ∈ matched_idx then t
  else ⟨t.memory.add (mkTrackedCluster t.next_uuid scene_id p.2.category
    p.2.center_of_mass p.2.shape_analysis p.2.velocity_analysis p.2.object_ids
    p.2.dbscan_params ts), t.next_uuid + 1⟩

def processCreates (t : TrackerState) (scene_id : String)
    (detections : List Detection) (ts : ℚ) (matched_idx : List ℕ) : TrackerState :=
  detections.enum.foldl (createStep scene_id ts matched_idx) t

/-- One iteration of the unmatched-clusters loop (lines 696-698): mark the
cluster missed in place. -/
def missStep (ts : ℚ) (matched_uuids : List ℕ) (t : TrackerState) (u : ℕ) :
    TrackerState :=
  if u ∈ matched_uuids then t
  else t.withMemory (withActive t.memory
    (dictModify t.memory.active_clusters u (fun c => c.markMissed ts)))

def processMissed (t : TrackerState) (trackable_uuids matched_uuids : List ℕ)
    (ts : ℚ) : TrackerState :=
  trackable_uuids.foldl (missStep ts matched_uuids) t

/-- `ClusterTracker._processCategoryDetections` (lines 651-699); `none` is
the uncaught scipy `ValueError` from `linear_sum_assignment` on an
infeasible cost matrix. -/
noncomputable def TrackerState.processCategoryDetections (t : TrackerState)
    (scene_id category : String) (detections : List Detection) (ts : ℚ) :
    Option TrackerState :=
  let trackable := trackableClusters t.memory category scene_id
  match hungarianMatch MAX_MATCHING_DISTANCE trackable detections with
  | none => none
  | some ms =>
      let s1 := processMatches t detections ts ms
      let t2 := processCreates s1.1 scene_id detections ts s1.2.2
      some (processMissed t2 (trackable.map (fun c => c.uuid)) s1.2.1 ts)

/-- One iteration of `_validateAllClustersInScene` (lines 635-645): a non-LOST
cluster not updated at this timestamp is marked missed. -/
def validateStep (ts : ℚ) (t : TrackerState) (u : ℕ) : TrackerState :=
  match lookupKey t.memory.active_clusters u with
  | none => t
  | some c =>
      if c.state = ClusterState.lost then t
      else if c.last_updated < ts then
        t.withMemory (withActive t.memory
          (dictModify t.memory.active_clusters u (fun c0 => c0.markMissed ts)))
      else t

/-- `ClusterTracker._validateAllClustersInScene` (lines 622-649). -/
def TrackerState.validateAllClustersInScene (t : TrackerState) (scene_id : String)
    (ts : ℚ) : TrackerState :=
  ((t.memory.getClustersByScene scene_id).map (fun c => c.uuid)).foldl
    (validateStep ts) t

/-- `ClusterTracker.processNewDetections` (lines 590-612). -/
noncomputable def TrackerState.processNewDetections (t : TrackerState)
    (scene_id : String) (detections : List Detection) (ts : ℚ) :
    Option TrackerState :=
  match (groupByCategory detections).foldl
      (fun acc kv => acc.bind
        (fun t0 => t0.processCategoryDetections scene_id kv.1 kv.2 ts))
      (some t) with
  | none => none
  | some t1 =>
      let t2 := t1.validateAllClustersInScene scene_id ts
      some (t2.withMemory (t2.memory.cleanupOldClusters (some ts)))

/-! ### Concrete run: the same message twice at the same timestamp -/

def emptyTracker : TrackerState := ⟨ClusterMemory.empty, 0⟩

noncomputable def afterOnce : Option TrackerState :=
  emptyTracker.processNewDetections "scene1" [sampleDetection] 10

noncomputable def afterTwice : Option TrackerState :=
  afterOnce.bind (fun t => t.processNewDetections "scene1" [sampleDetection] 10)

/-- The tracker after the first call: `sampleDetection` became the new
cluster `sampleCluster` under uuid 0. -/
def oneClusterTracker : TrackerState := ⟨ClusterMemory.empty.add sampleCluster, 1⟩

/-- The matched cluster after the second call: updated again at the same
timestamp. -/
def twiceCluster : TrackedCluster :=
  sampleCluster.update ⟨0, 0⟩ ⟨"circle"⟩ ⟨0, 0⟩ ["o1"] 10

def twiceTracker : TrackerState :=
  ⟨⟨[(0, twiceCluster)], [], [("scene1", [0])], [("person", [0])]⟩, 1⟩

lemma afterOnceEval : afterOnce = some oneClusterTracker := by decide

lemma categoryStepTwice :
    oneClusterTracker.processCategoryDetections "scene1" "person"
      [sampleDetection] 10 = some twiceTracker := by
  unfold TrackerState.processCategoryDetections
  dsimp only
  rw [show trackableClusters oneClusterTracker.memory "person" "scene1"
    = [sampleCluster] from by decide]
  rw [matchSampleEval]
  dsimp only
  rfl

lemma afterTwiceEval : afterTwice = some twiceTracker := by
  unfold afterTwice
  rw [afterOnceEval]
  show oneClusterTracker.processNewDetections "scene1" [sampleDetection] 10
    = some twiceTracker
  unfold TrackerState.processNewDetections
  rw [show groupByCategory [sampleDetection] = [("person", [sampleDetection])]
    from by decide]
  rw [List.foldl_cons, List.foldl_nil]
  have hb : (some oneClusterTracker).bind
      (fun t0 => t0.processCategoryDetections "scene1" "person" [sampleDetection] 10)
      = some twiceTracker := categoryStepTwice
  rw [hb]
  dsimp only
  decide

/-- Claim C3 (counterexample): feeding the regulated message
`[sampleDetection]` for scene `"scene1"` at timestamp 10 to the coordinator
twice does not give the tracker state of feeding it once:
`_processCategoryDetections` has no `last_updated == timestamp` guard, so
the second call matches the stored cluster and calls `update` on it
unconditionally. -/
theorem process_twice_counterexample : ¬ (afterTwice = afterOnce) := by
  rw [afterOnceEval, afterTwiceEval]
  decide

/-- Claim C3 (amended): reprocessing the same message at the same timestamp
preserves the set of stored cluster uuids, but the second call updates the
matched cluster again — `frames_detected` and `total_frames` go from 1 to
2 — rather than skipping it; only `_validateAllClustersInScene` consults
`last_updated` (protecting the cluster from being marked missed), no check
guards the update path. -/
theorem process_twice_updates_again :
    afterOnce.map (fun t => dictKeys t.memory.active_clusters)
      = afterTwice.map (fun t => dictKeys t.memory.active_clusters) ∧
    afterOnce.map (fun t => (lookupKey t.memory.active_clusters 0).map
      (fun c => (c.frames_detected, c.frames_missed, c.total_frames, c.last_updated)))
      = some (some (1, 0, 1, 10)) ∧
    afterTwice.map (fun t => (lookupKey t.memory.active_clusters 0).map
      (fun c => (c.frames_detected, c.frames_missed, c.total_frames, c.last_updated)))
      = some (some (2, 0, 2, 10)) := by
  rw [afterOnceEval, afterTwiceEval]
  refine ⟨by decide, by decide, by decide⟩

end SceneScape
